import Mathlib

/-!
# DatasetReader.h (DSO dataset reader): a shallow embedding

The development follows `src/03_Application/dso/src/util/DatasetReader.h`.

Modelling conventions.

* `std::vector<double> timestamps` and `std::vector<float> exposures` are lists of
  rationals: every finite IEEE value is a rational, and the arithmetic of the exposure
  repair and of the pose conversion is exact (no rounding, no NaN or infinity).
* The single-precision product `id*0.1f` of `getTimestamp` is rounded as binary32
  does (`roundFloat`).
* Sizes computed in `int` or `long` by `getImageRaw_internal` are checked against the
  width of the type; a write past the end of a buffer is an explicit outcome.
* Container sizes are natural numbers; the `(int)` casts of the source are the
  identity on sizes that fit an `int`.
* `sscanf` on one line of `times.txt` is represented by its outcome (`TimesLine`).
* `exit(1)` is an explicit outcome, never a crash of the model.
-/

namespace DatasetReader

/-! ## Timestamps and exposures (`loadTimestamps`, lines 301-363) -/

/-- Outcome of the two `sscanf` attempts made on one line of `times.txt`:
`three` when `"%d %lf %f"` matched three fields, `two` when only `"%d %lf"`
matched two, `skipped` when neither did. -/
inductive TimesLine where
  | three (stamp exposure : ℚ)
  | two (stamp : ℚ)
  | skipped
  deriving DecidableEq

/-- The two member vectors `timestamps` and `exposures` of `ImageFolderReader`. -/
structure MetaState where
  timestamps : List ℚ
  exposures : List ℚ
  deriving DecidableEq

/-- Body of the `while` loop of `loadTimestamps` (lines 308-326): both vectors
receive one element per matching line; `exposure` keeps its initial value `0`
when only two fields matched. -/
def readLine (s : MetaState) : TimesLine → MetaState
  | .three stamp exposure =>
      { timestamps := s.timestamps ++ [stamp], exposures := s.exposures ++ [exposure] }
  | .two stamp =>
      { timestamps := s.timestamps ++ [stamp], exposures := s.exposures ++ [0] }
  | .skipped => s

/-- The reading loop of `loadTimestamps` (lines 306-327), started on empty vectors. -/
def readTimes (lines : List TimesLine) : MetaState :=
  lines.foldl readLine { timestamps := [], exposures := [] }

/-- Lines 334-343: the `// fix!` block for index `i`, on the vector as it stands
when the loop reaches `i`. The pair `(sum, num)` is threaded through the two
neighbour tests. -/
def fixExposure (ex : List ℚ) (i : Nat) : List ℚ :=
  if ex.getD i 0 = 0 then
    let sn0 : ℚ × ℚ := (0, 0)
    let sn1 : ℚ × ℚ :=
      if 0 < i ∧ 0 < ex.getD (i - 1) 0 then (sn0.1 + ex.getD (i - 1) 0, sn0.2 + 1) else sn0
    let sn2 : ℚ × ℚ :=
      if i + 1 < ex.length ∧ 0 < ex.getD (i + 1) 0 then (sn1.1 + ex.getD (i + 1) 0, sn1.2 + 1)
      else sn1
    if 0 < sn2.2 then ex.set i (sn2.1 / sn2.2) else ex
  else ex

/-- One iteration of the `for` loop of lines 332-346 on the pair
(`exposures`, `exposuresGood`). -/
def repairBody (st : List ℚ × Bool) (i : Nat) : List ℚ × Bool :=
  let ex := fixExposure st.1 i
  (ex, if ex.getD i 0 = 0 then false else st.2)

/-- The `for` loop of lines 332-346: `i` runs over `0 .. exposures.size()-1`
(the size is not changed by the body). -/
def repairLoop (ex : List ℚ) (good : Bool) : List ℚ × Bool :=
  (List.range ex.length).foldl repairBody (ex, good)

/-- Lines 330-360 of `loadTimestamps`, textually repeated as lines 566-596 of
`loadCameraPoses`: the exposure repair followed by the two consistency checks. -/
def checkExposures (numImages : Nat) (s : MetaState) : MetaState :=
  let r := repairLoop s.exposures (decide (s.exposures.length = numImages))
  let s1 : MetaState := { timestamps := s.timestamps, exposures := r.1 }
  let s2 : MetaState :=
    if numImages ≠ s1.timestamps.length then { timestamps := [], exposures := [] } else s1
  if numImages ≠ s2.exposures.length ∨ r.2 = false then { s2 with exposures := [] } else s2

/-- The function `loadTimestamps`: `numImages` is `getNumImages()`, `lines` the outcome
of `sscanf` on each line read from `times.txt`. -/
def loadTimestamps (numImages : Nat) (lines : List TimesLine) : MetaState :=
  checkExposures numImages (readTimes lines)

/-- The time stamp a line contributes, if it parses. -/
def lineStamp : TimesLine → Option ℚ
  | .three stamp _ => some stamp
  | .two stamp => some stamp
  | .skipped => none

/-- The exposure a line contributes, if it parses. -/
def lineExposure : TimesLine → Option ℚ
  | .three _ exposure => some exposure
  | .two _ => some 0
  | .skipped => none

/-- The exposure vector after the repair loop (the flag does not influence it). -/
def repairedExposures (ex : List ℚ) : List ℚ := (repairLoop ex true).1

/-- Value the repair gives to a zero entry, written out by cases: `left` is the
entry at `i-1` as it stands when index `i` is reached, `right` the entry at `i+1`. -/
def averageOfPositive (hasLeft : Prop) [Decidable hasLeft] (left : ℚ)
    (hasRight : Prop) [Decidable hasRight] (right : ℚ) : ℚ :=
  if hasLeft ∧ 0 < left then
    if hasRight ∧ 0 < right then (left + right) / 2 else left
  else
    if hasRight ∧ 0 < right then right else 0


/-! ## Camera poses (`loadCameraPoses`, lines 368-564) -/

/-- The type `Eigen::Vector3d`, exact arithmetic. -/
@[ext]
structure Vec3 where
  x : ℚ
  y : ℚ
  z : ℚ
  deriving DecidableEq

/-- The type `Eigen::Matrix3d`; field `mij` is the coefficient of row `i`, column `j`. -/
@[ext]
structure Mat3 where
  m00 : ℚ
  m01 : ℚ
  m02 : ℚ
  m10 : ℚ
  m11 : ℚ
  m12 : ℚ
  m20 : ℚ
  m21 : ℚ
  m22 : ℚ
  deriving DecidableEq

/-- The type `Eigen::Quaterniond`, constructed as in the source from `(w, x, y, z)`. -/
structure Quat where
  w : ℚ
  x : ℚ
  y : ℚ
  z : ℚ
  deriving DecidableEq

namespace Vec3

/-- The zero vector. -/
def zero : Vec3 := ⟨0, 0, 0⟩

/-- Sum of two vectors. -/
def add (a b : Vec3) : Vec3 := ⟨a.x + b.x, a.y + b.y, a.z + b.z⟩

/-- Opposite of a vector. -/
def neg (a : Vec3) : Vec3 := ⟨-a.x, -a.y, -a.z⟩

end Vec3

namespace Mat3

/-- The identity matrix. -/
def identity : Mat3 := ⟨1, 0, 0, 0, 1, 0, 0, 0, 1⟩

/-- Transposed matrix. -/
def transpose (m : Mat3) : Mat3 :=
  ⟨m.m00, m.m10, m.m20, m.m01, m.m11, m.m21, m.m02, m.m12, m.m22⟩

/-- Matrix product. -/
def mul (a b : Mat3) : Mat3 :=
  ⟨a.m00 * b.m00 + a.m01 * b.m10 + a.m02 * b.m20,
   a.m00 * b.m01 + a.m01 * b.m11 + a.m02 * b.m21,
   a.m00 * b.m02 + a.m01 * b.m12 + a.m02 * b.m22,
   a.m10 * b.m00 + a.m11 * b.m10 + a.m12 * b.m20,
   a.m10 * b.m01 + a.m11 * b.m11 + a.m12 * b.m21,
   a.m10 * b.m02 + a.m11 * b.m12 + a.m12 * b.m22,
   a.m20 * b.m00 + a.m21 * b.m10 + a.m22 * b.m20,
   a.m20 * b.m01 + a.m21 * b.m11 + a.m22 * b.m21,
   a.m20 * b.m02 + a.m21 * b.m12 + a.m22 * b.m22⟩

/-- Product of a matrix and a column vector. -/
def mulVec (a : Mat3) (v : Vec3) : Vec3 :=
  ⟨a.m00 * v.x + a.m01 * v.y + a.m02 * v.z,
   a.m10 * v.x + a.m11 * v.y + a.m12 * v.z,
   a.m20 * v.x + a.m21 * v.y + a.m22 * v.z⟩

/-- Determinant, expanded along the first row. -/
def det (m : Mat3) : ℚ :=
  m.m00 * (m.m11 * m.m22 - m.m12 * m.m21)
    - m.m01 * (m.m10 * m.m22 - m.m12 * m.m20)
    + m.m02 * (m.m10 * m.m21 - m.m11 * m.m20)

/-- Modelled from the spec: Eigen's `inverse()` of a 3x3 block is not among the
sources; it is the matrix inverse, here the transposed cofactors divided by the
determinant. -/
def inverse (m : Mat3) : Mat3 :=
  let invdet : ℚ := 1 / m.det
  ⟨(m.m11 * m.m22 - m.m12 * m.m21) * invdet,
   (m.m21 * m.m02 - m.m22 * m.m01) * invdet,
   (m.m01 * m.m12 - m.m02 * m.m11) * invdet,
   (m.m12 * m.m20 - m.m10 * m.m22) * invdet,
   (m.m22 * m.m00 - m.m20 * m.m02) * invdet,
   (m.m02 * m.m10 - m.m00 * m.m12) * invdet,
   (m.m10 * m.m21 - m.m11 * m.m20) * invdet,
   (m.m20 * m.m01 - m.m21 * m.m00) * invdet,
   (m.m00 * m.m11 - m.m01 * m.m10) * invdet⟩

end Mat3

namespace Quat

/-- The identity quaternion `(w, x, y, z) = (1, 0, 0, 0)`. -/
def identity : Quat := ⟨1, 0, 0, 0⟩

/-- Squared norm; a unit quaternion has squared norm 1. -/
def squaredNorm (q : Quat) : ℚ := q.w * q.w + q.x * q.x + q.y * q.y + q.z * q.z

/-- Modelled from the spec: Eigen's `Quaterniond::toRotationMatrix()` is not among
the sources; it is the rotation matrix `R(q)` of the quaternion, in the usual
closed form for a unit quaternion. -/
def toRotationMatrix (q : Quat) : Mat3 :=
  let tx := 2 * q.x
  let ty := 2 * q.y
  let tz := 2 * q.z
  let twx := tx * q.w
  let twy := ty * q.w
  let twz := tz * q.w
  let txx := tx * q.x
  let txy := ty * q.x
  let txz := tz * q.x
  let tyy := ty * q.y
  let tyz := tz * q.y
  let tzz := tz * q.z
  ⟨1 - (tyy + tzz), txy - twz, txz + twy,
   txy + twz, 1 - (txx + tzz), tyz - twx,
   txz - twy, tyz + twx, 1 - (txx + tyy)⟩

end Quat

/-- The type `Eigen::Affine3d`: the linear block and the translation column of a 4x4 matrix
whose last row is `(0, 0, 0, 1)`. -/
structure Affine3 where
  linear : Mat3
  translation : Vec3
  deriving DecidableEq

namespace Affine3

/-- The identity transform (`setIdentity()`). -/
def identity : Affine3 := ⟨Mat3.identity, Vec3.zero⟩

/-- Modelled from the spec: Eigen's `Affine3d::inverse()` is not among the sources;
the inverse of `x ↦ L x + t` is `x ↦ L⁻¹ x - L⁻¹ t`. -/
def inverse (a : Affine3) : Affine3 :=
  let li := a.linear.inverse
  ⟨li, (li.mulVec a.translation).neg⟩

/-- Modelled from the spec: Eigen's product of two `Affine3d` is not among the
sources; it is the composition `x ↦ a (b x)`. -/
def mul (a b : Affine3) : Affine3 :=
  ⟨a.linear.mul b.linear, (a.linear.mulVec b.translation).add a.translation⟩

end Affine3

/-- The matrix `linearB2D` of lines 425-428. -/
def linearB2D : Mat3 := ⟨-1, 0, 0, 0, 0, -1, 0, 1, 0⟩

/-- The transform `blender2DSO` of lines 429-431: identity with linear part `linearB2D`. -/
def blender2DSO : Affine3 := { Affine3.identity with linear := linearB2D }

/-- The arguments handed to the `SE3` constructor on line 438. Sophus is not among
the sources; the pose is kept as the rotation matrix and translation it is built
from. The object the constructor makes of them is `StoredSE3`. -/
structure SE3 where
  rotation : Mat3
  translation : Vec3
  deriving DecidableEq

/-- Lines 406-438 of `loadCameraPoses`: the pose built from one parsed record. The
call `blenderWorld2Camera.Identity()` on line 414 is a static call whose result is
dropped; the translation and the linear block are both assigned on the next two
lines, and the last row of the matrix is not read by the inverse. -/
def convertPose (translation : Vec3) (orientation : Quat) : SE3 :=
  let blenderWorld2Camera : Affine3 :=
    { translation := translation, linear := orientation.toRotationMatrix }
  let blenderCamera2World : Affine3 := blenderWorld2Camera.inverse
  let finalPose : Affine3 := blender2DSO.mul blenderCamera2World
  ⟨finalPose.linear, finalPose.translation⟩

/-- One record of the poses file for which `sscanf` matched all eight fields. -/
structure PoseRecord where
  stamp : ℚ
  loc : Vec3
  quat : Quat

/-- Lines 374-563 of `loadCameraPoses`: a line that parses (`some`) appends its
converted pose to `cameraPoses`; any other line is skipped. -/
def readPoses (lines : List (Option PoseRecord)) : List SE3 :=
  lines.foldl
    (fun poses line =>
      match line with
      | some r => poses ++ [convertPose r.loc r.quat]
      | none => poses)
    []


/-- Modelled from the spec: Sophus is not among the sources. The object that
`SE3(R, t)` builds keeps its rotation as a quaternion (the member of its `SO3` part)
next to the translation. -/
structure StoredSE3 where
  unit_quaternion : Quat
  translation : Vec3
  deriving DecidableEq

/-- Modelled from the spec: the rotation matrix of a stored pose is the matrix of its
quaternion. -/
def StoredSE3.rotationMatrix (p : StoredSE3) : Mat3 := p.unit_quaternion.toRotationMatrix

/-- Line 438, the constructor call `SE3 cameraPose(finalPose.linear(),
finalPose.translation())`. How Sophus turns the matrix into a quaternion is not in the
sources: it is the parameter `toQuaternion`, `none` standing for a constructor that
rejects the matrix. -/
def constructSE3 (toQuaternion : Mat3 → Option Quat) (args : SE3) : Option StoredSE3 :=
  match toQuaternion args.rotation with
  | some u => some { unit_quaternion := u, translation := args.translation }
  | none => none

/-- The constructor of line 438 applied to each pose in turn. -/
def constructAll (toQuaternion : Mat3 → Option Quat) : List SE3 → Option (List StoredSE3)
  | [] => some []
  | a :: rest =>
    match constructSE3 toQuaternion a, constructAll toQuaternion rest with
    | some p, some ps => some (p :: ps)
    | _, _ => none

/-- The vector `cameraPoses` after the loop of lines 374-563, as the objects built on
line 438 and pushed on line 441. -/
def storedCameraPoses (toQuaternion : Mat3 → Option Quat)
    (lines : List (Option PoseRecord)) : Option (List StoredSE3) :=
  constructAll toQuaternion (readPoses lines)

/-! ## Frame index for a directory (`getdir`, lines 48-76) -/

/-- How a call of `getdir` ends: it returns `ret` with the vector `files`, or one of
its `std::string::at` calls throws `std::out_of_range`. -/
inductive GetdirResult where
  | returned (ret : Int) (files : List String)
  | outOfRange
  deriving DecidableEq

/-- Line 68: the directory path, with `/` appended unless it already ends in `/`. -/
def withSlash (dir : String) : String :=
  if dir.back ≠ '/' then dir ++ "/" else dir

/-- The `for` loop of lines 69-73 on the remaining entries: `at(0)` throws on an empty
name (`none`); a name that does not start with `/` gets `dir` put in front. -/
def rootFiles (dir : String) : List String → Option (List String)
  | [] => some []
  | f :: fs =>
    if f.length = 0 then none
    else
      match rootFiles dir fs with
      | none => none
      | some rest => some ((if f.front ≠ '/' then dir ++ f else f) :: rest)

/-- The function `getdir`. `listing` is what the directory enumeration yields: `none`
when `opendir` fails, otherwise the names returned by `readdir` in order. `files` is
the vector passed by reference. `std::sort` is the ascending rearrangement, which is
unique for a total order, computed here by insertion. -/
def getdir (dir : String) (listing : Option (List String)) (files : List String) :
    GetdirResult :=
  match listing with
  | none => .returned (-1) files
  | some names =>
    let files1 :=
      files ++ names.filter (fun name => decide (name ≠ ".") && decide (name ≠ ".."))
    let files2 := files1.insertionSort (· ≤ ·)
    if dir.length = 0 then .outOfRange
    else
      match rootFiles (withSlash dir) files2 with
      | none => .outOfRange
      | some files3 => .returned files3.length files3


/-! ## The reader object -/

/-- Lines 368-599, `loadCameraPoses`: the poses read from the file, and the member
vectors after the repeated exposure check of lines 566-596. -/
def loadCameraPoses (numImages : Nat) (poseLines : List (Option PoseRecord))
    (s : MetaState) : List SE3 × MetaState :=
  (readPoses poseLines, checkExposures numImages s)

/-- The members of `ImageFolderReader` that the metadata queries use; `numImages` is
`files.size()`. -/
structure ImageFolderReader where
  numImages : Nat
  timestamps : List ℚ
  exposures : List ℚ
  cameraPoses : List SE3

/-- The metadata part of the constructor (lines 163-165): `loadTimestamps()` followed
by `loadCameraPoses()`, for `numImages` files. -/
def ImageFolderReader.create (numImages : Nat) (timesLines : List TimesLine)
    (poseLines : List (Option PoseRecord)) : ImageFolderReader :=
  let s := loadTimestamps numImages timesLines
  let r := loadCameraPoses numImages poseLines s
  { numImages := numImages, timestamps := r.2.timestamps, exposures := r.2.exposures,
    cameraPoses := r.1 }

/-! ### Single-precision arithmetic of `id*0.1f` (line 211) -/

/-- Spacing of the binary32 values around `x`: starting from the smallest spacing
`2^-149`, the spacing doubles while `|x|` needs more than 24 significant bits. The 253
doublings available reach the largest binade; values of `2^128` and more (which
overflow in binary32) do not arise from an `int`. -/
def floatQuantum (x : ℚ) : Nat → ℚ → ℚ
  | 0, q => q
  | fuel + 1, q => if |x| < q * 2 ^ 24 then q else floatQuantum x fuel (2 * q)

/-- Nearest multiple of `q` to `x`, a tie going to the even multiple. -/
def roundToMultiple (x q : ℚ) : ℚ :=
  let n : Int := ⌊x / q⌋
  let r : ℚ := x / q - n
  if r < 1 / 2 then n * q
  else if 1 / 2 < r then (n + 1) * q
  else if n % 2 = 0 then n * q
  else (n + 1) * q

/-- Rounding of a rational to binary32 (round to nearest, ties to even). -/
def roundFloat (x : ℚ) : ℚ := roundToMultiple x (floatQuantum x 253 (1 / 2 ^ 149))

/-- The literal `0.1f`: the binary32 value nearest to one tenth. -/
def pointOneF : ℚ := roundFloat (1 / 10)

/-- The function `getTimestamp` (lines 209-215). On line 211 `id` is converted to
`float`, multiplied by `0.1f` in single precision, and the product is returned as a
`double` (an exact conversion). -/
def getTimestamp (timestamps : List ℚ) (id : Int) : ℚ :=
  if timestamps.length = 0 then roundFloat (roundFloat (id : ℚ) * pointOneF)
  else if id ≥ (timestamps.length : Int) then 0
  else if id < 0 then 0
  else timestamps.getD id.toNat 0

/-! ## Archive backend of `getImageRaw_internal` (lines 262-281) -/

/-- Modelled from the spec: `zip_fread` belongs to libzip, which is not among the
sources; a read of capacity `capacity` on an entry of `entrySize` bytes returns
`min entrySize capacity`. -/
def zip_fread (entrySize capacity : Nat) : Nat := min entrySize capacity

/-- How a call of `getImageRaw_internal` on the archive backend ends: the decoder is
called on `readbytes` bytes; `exit(1)` is reached; or the behaviour is undefined,
either because a size expression overflows its signed type (`intOverflow`) or because
`zip_fread` has written past the end of `databuffer` (`overrun`). -/
inductive RawResult where
  | decoded (readbytes : Nat)
  | abort
  | intOverflow
  | overrun
  deriving DecidableEq

/-- One `zip_fread` call: the capacity passed to it, the size of `databuffer` at that
moment, and the number of bytes it returned (and wrote). -/
structure ReadCall where
  requested : Nat
  bufferSize : Nat
  readbytes : Nat
  deriving DecidableEq

/-- Trace of one call of `getImageRaw_internal` on the archive backend: the sizes
passed to `new char[...]`, the sizes of the buffers freed by `delete[]`, the reads in
order, how the call ends, and `databuffer` afterwards. -/
structure RawCall where
  allocations : List Nat
  releases : List Nat
  reads : List ReadCall
  result : RawResult
  databuffer : Option Nat
  deriving DecidableEq

/-- Number of reallocations in a call: each `delete[]` of lines 269-270 is followed by
a `new`. -/
def RawCall.reallocations (c : RawCall) : Nat := c.releases.length

/-- Whether a non-negative value fits the 32-bit `int` in which line 262 computes
`widthOrg*heightOrg*6+10000` (the operands are non-negative, so the intermediate
products are no larger than the result). -/
def fitsInt (x : Nat) : Bool := decide (x < 2 ^ 31)

/-- Whether a non-negative value fits the 64-bit `long` in which lines 264-276 compute
their sizes after the cast `(long)widthOrg`. -/
def fitsLong (x : Nat) : Bool := decide (x < 2 ^ 63)

/-- Lines 262-281 of `getImageRaw_internal` (archive backend). `databuffer` is `none`
for the null pointer and `some n` for a buffer of `n` bytes; `entrySize` is the size
of the archive entry `files[id]`. Allocation itself is taken to succeed. A read that
returns more bytes than `databuffer` holds ends the trace (`overrun`): what the
program does after writing past the buffer is undefined. After an undefined outcome
the other fields record what happened before it (a pointer left dangling by `delete[]`
is a buffer of 0 bytes). -/
def getImageRaw_internal (widthOrg heightOrg : Nat) (databuffer : Option Nat)
    (entrySize : Nat) : RawCall :=
  let buffer0 : Nat :=
    match databuffer with
    | none => widthOrg * heightOrg * 6 + 10000
    | some n => n
  let allocations0 : List Nat :=
    match databuffer with
    | none => [widthOrg * heightOrg * 6 + 10000]
    | some _ => []
  if databuffer = none ∧ fitsInt (widthOrg * heightOrg * 6 + 10000) = false then
    { allocations := [], releases := [], reads := [], result := .intOverflow,
      databuffer := none }
  else if fitsLong (widthOrg * heightOrg * 6 + 10000) = false then
    { allocations := allocations0, releases := [], reads := [], result := .intOverflow,
      databuffer := some buffer0 }
  else
    let read0 : ReadCall :=
      { requested := widthOrg * heightOrg * 6 + 10000, bufferSize := buffer0,
        readbytes := zip_fread entrySize (widthOrg * heightOrg * 6 + 10000) }
    if read0.readbytes > buffer0 then
      { allocations := allocations0, releases := [], reads := [read0],
        result := .overrun, databuffer := some buffer0 }
    else if read0.readbytes > widthOrg * heightOrg * 6 then
      if fitsLong (widthOrg * heightOrg * 30) = false then
        { allocations := allocations0, releases := [buffer0], reads := [read0],
          result := .intOverflow, databuffer := some 0 }
      else if fitsLong (widthOrg * heightOrg * 30 + 10000) = false then
        { allocations := allocations0 ++ [widthOrg * heightOrg * 30],
          releases := [buffer0], reads := [read0], result := .intOverflow,
          databuffer := some (widthOrg * heightOrg * 30) }
      else
        let buffer1 : Nat := widthOrg * heightOrg * 30
        let read1 : ReadCall :=
          { requested := widthOrg * heightOrg * 30 + 10000, bufferSize := buffer1,
            readbytes := zip_fread entrySize (widthOrg * heightOrg * 30 + 10000) }
        if read1.readbytes > buffer1 then
          { allocations := allocations0 ++ [buffer1], releases := [buffer0],
            reads := [read0, read1], result := .overrun, databuffer := some buffer1 }
        else if read1.readbytes > widthOrg * heightOrg * 30 then
          { allocations := allocations0 ++ [buffer1], releases := [buffer0],
            reads := [read0, read1], result := .abort, databuffer := some buffer1 }
        else
          { allocations := allocations0 ++ [buffer1], releases := [buffer0],
            reads := [read0, read1], result := .decoded read1.readbytes,
            databuffer := some buffer1 }
    else
      { allocations := allocations0, releases := [], reads := [read0],
        result := .decoded read0.readbytes, databuffer := some buffer0 }

/-! ## Metadata lookup of `getImage_internal` (lines 290-299) -/

/-- The access `v[id]` of a `std::vector` with an `int` index: `none` stands for an
access outside the vector (a negative index converts to a huge unsigned one). -/
def vectorAt (v : List ℚ) (id : Int) : Option ℚ :=
  if id < 0 then none else v[id.toNat]?

/-- Lines 293-296 of `getImage_internal`: the pair (exposure, timestamp) passed to
`undistort`, or `none` when one of the two lookups falls outside its vector. -/
def getImage_internal (r : ImageFolderReader) (id : Int) : Option (ℚ × ℚ) :=
  match (if r.exposures.length = 0 then some 1 else vectorAt r.exposures id),
      (if r.timestamps.length = 0 then some 0 else vectorAt r.timestamps id) with
  | some exposure, some timestamp => some (exposure, timestamp)
  | _, _ => none

/-! # Theorems -/

/-! ### Lemmas on the reading loop -/

theorem foldl_readLine_timestamps (lines : List TimesLine) (s : MetaState) :
    (lines.foldl readLine s).timestamps = s.timestamps ++ lines.filterMap lineStamp := by
  induction lines generalizing s with
  | nil => simp
  | cons l ls ih =>
    cases l <;> simp [List.foldl_cons, readLine, lineStamp, ih]

theorem foldl_readLine_exposures (lines : List TimesLine) (s : MetaState) :
    (lines.foldl readLine s).exposures = s.exposures ++ lines.filterMap lineExposure := by
  induction lines generalizing s with
  | nil => simp
  | cons l ls ih =>
    cases l <;> simp [List.foldl_cons, readLine, lineExposure, ih]

theorem readTimes_timestamps (lines : List TimesLine) :
    (readTimes lines).timestamps = lines.filterMap lineStamp := by
  simp [readTimes, foldl_readLine_timestamps]

theorem readTimes_exposures (lines : List TimesLine) :
    (readTimes lines).exposures = lines.filterMap lineExposure := by
  simp [readTimes, foldl_readLine_exposures]

theorem readTimes_lengths (lines : List TimesLine) :
    (readTimes lines).exposures.length = (readTimes lines).timestamps.length := by
  rw [readTimes_timestamps, readTimes_exposures]
  induction lines with
  | nil => simp
  | cons l ls ih => cases l <;> simp [lineStamp, lineExposure, ih]

/-! ### Lemmas on the repair loop -/

theorem length_fixExposure (ex : List ℚ) (i : Nat) :
    (fixExposure ex i).length = ex.length := by
  unfold fixExposure
  split_ifs <;> simp

theorem getD_fixExposure_of_ne (ex : List ℚ) {i j : Nat} (h : i ≠ j) :
    (fixExposure ex i).getD j 0 = ex.getD j 0 := by
  unfold fixExposure
  split_ifs <;> simp [List.getD_eq_getElem?_getD, List.getElem?_set_ne h]

theorem getD_set_self (ex : List ℚ) {i : Nat} (h : i < ex.length) (v : ℚ) :
    (ex.set i v).getD i 0 = v := by
  simp [List.getD_eq_getElem?_getD, List.getElem?_set, h]

theorem getD_fixExposure_self (ex : List ℚ) {i : Nat} (h : i < ex.length) :
    (fixExposure ex i).getD i 0 =
      if ex.getD i 0 = 0 then
        averageOfPositive (0 < i) (ex.getD (i - 1) 0) (i + 1 < ex.length) (ex.getD (i + 1) 0)
      else ex.getD i 0 := by
  unfold fixExposure averageOfPositive
  by_cases h0 : ex.getD i 0 = 0
  · rw [if_pos h0, if_pos h0]
    by_cases hl : 0 < i ∧ 0 < ex.getD (i - 1) 0 <;>
      by_cases hr : i + 1 < ex.length ∧ 0 < ex.getD (i + 1) 0
    · simp only [if_pos hl, if_pos hr, zero_add]
      rw [if_pos (by norm_num), getD_set_self ex h]
      norm_num
    · simp only [if_pos hl, if_neg hr, zero_add]
      rw [if_pos (by norm_num), getD_set_self ex h]
      norm_num
    · simp only [if_neg hl, if_pos hr, zero_add]
      rw [if_pos (by norm_num), getD_set_self ex h]
      norm_num
    · simp only [if_neg hl, if_neg hr]
      rw [if_neg (by norm_num)]
      exact h0
  · rw [if_neg h0, if_neg h0]

theorem repairLoop_eq_foldl (ex : List ℚ) (good : Bool) :
    repairLoop ex good = (List.range ex.length).foldl repairBody (ex, good) := rfl

theorem foldl_range_succ (st : List ℚ × Bool) (k : Nat) :
    (List.range (k + 1)).foldl repairBody st
      = repairBody ((List.range k).foldl repairBody st) k := by
  rw [List.range_succ, List.foldl_append]
  rfl

theorem length_foldl_range (ex : List ℚ) (good : Bool) (k : Nat) :
    ((List.range k).foldl repairBody (ex, good)).1.length = ex.length := by
  induction k with
  | zero => rfl
  | succ k ih => rw [foldl_range_succ]; simp only [repairBody, length_fixExposure, ih]

theorem fst_foldl_range_flag (ex : List ℚ) (g g' : Bool) (k : Nat) :
    ((List.range k).foldl repairBody (ex, g)).1
      = ((List.range k).foldl repairBody (ex, g')).1 := by
  induction k with
  | zero => rfl
  | succ k ih => rw [foldl_range_succ, foldl_range_succ]; simp only [repairBody, ih]

/-- Entries not yet reached by the loop still hold the parsed value. -/
theorem getD_foldl_range_of_le (ex : List ℚ) (good : Bool) {k j : Nat} (h : k ≤ j) :
    ((List.range k).foldl repairBody (ex, good)).1.getD j 0 = ex.getD j 0 := by
  induction k with
  | zero => rfl
  | succ k ih =>
    rw [foldl_range_succ]
    simp only [repairBody]
    rw [getD_fixExposure_of_ne _ (by omega : k ≠ j)]
    exact ih (by omega)

/-- Entries already passed by the loop are not touched again. -/
theorem getD_foldl_range_of_lt (ex : List ℚ) (good : Bool) {j k : Nat} (h : j < k) :
    ((List.range k).foldl repairBody (ex, good)).1.getD j 0
      = ((List.range (j + 1)).foldl repairBody (ex, good)).1.getD j 0 := by
  induction k with
  | zero => omega
  | succ k ih =>
    by_cases hk : j = k
    · subst hk; rfl
    · rw [foldl_range_succ]
      simp only [repairBody]
      rw [getD_fixExposure_of_ne _ (by omega : k ≠ j)]
      exact ih (by omega)

/-- The flag after `k` iterations: the initial flag, and no zero among the first `k`
entries of the current vector. -/
theorem snd_foldl_range (ex : List ℚ) (good : Bool) (k : Nat) :
    ((List.range k).foldl repairBody (ex, good)).2 = true ↔
      good = true ∧
        ∀ j, j < k → ((List.range k).foldl repairBody (ex, good)).1.getD j 0 ≠ 0 := by
  induction k with
  | zero => simp
  | succ k ih =>
    have hstep : ∀ j, j < k →
        ((List.range (k + 1)).foldl repairBody (ex, good)).1.getD j 0
          = ((List.range k).foldl repairBody (ex, good)).1.getD j 0 := by
      intro j hj
      rw [getD_foldl_range_of_lt ex good (by omega : j < k + 1),
        getD_foldl_range_of_lt ex good hj]
    constructor
    · intro h
      rw [foldl_range_succ] at h
      simp only [repairBody] at h
      by_cases hz : (fixExposure ((List.range k).foldl repairBody (ex, good)).1 k).getD k 0 = 0
      · rw [if_pos hz] at h; exact absurd h (by decide)
      · rw [if_neg hz] at h
        obtain ⟨hg, hall⟩ := ih.mp h
        refine ⟨hg, fun j hj => ?_⟩
        by_cases hjk : j = k
        · subst hjk
          rw [foldl_range_succ]
          exact hz
        · rw [hstep j (by omega)]
          exact hall j (by omega)
    · rintro ⟨hg, hall⟩
      have hz := hall k (by omega)
      rw [foldl_range_succ] at hz ⊢
      simp only [repairBody] at hz ⊢
      rw [if_neg hz]
      refine ih.mpr ⟨hg, fun j hj => ?_⟩
      rw [← hstep j hj]
      exact hall j (by omega)

theorem length_repairLoop (ex : List ℚ) (good : Bool) :
    (repairLoop ex good).1.length = ex.length :=
  length_foldl_range ex good ex.length

theorem repairLoop_fst_eq (ex : List ℚ) (good : Bool) :
    (repairLoop ex good).1 = repairedExposures ex :=
  fst_foldl_range_flag ex good true ex.length

theorem length_repairedExposures (ex : List ℚ) :
    (repairedExposures ex).length = ex.length :=
  length_repairLoop ex true

theorem mem_iff_getD_eq (l : List ℚ) (v : ℚ) :
    v ∈ l ↔ ∃ j, j < l.length ∧ l.getD j 0 = v := by
  rw [List.mem_iff_getElem]
  constructor
  · rintro ⟨n, hn, h⟩
    exact ⟨n, hn, by rw [List.getD_eq_getElem l 0 hn]; exact h⟩
  · rintro ⟨n, hn, h⟩
    exact ⟨n, hn, by rw [List.getD_eq_getElem l 0 hn] at h; exact h⟩

/-- The flag left by the loop: it is `true` exactly when it was `true` on entry and
no entry of the repaired vector is zero. -/
theorem repairLoop_snd (ex : List ℚ) (good : Bool) :
    (repairLoop ex good).2 = true ↔ good = true ∧ (0 : ℚ) ∉ repairedExposures ex := by
  rw [← repairLoop_fst_eq ex good, mem_iff_getD_eq, length_repairLoop]
  rw [repairLoop_eq_foldl, snd_foldl_range]
  constructor
  · rintro ⟨hg, hall⟩
    exact ⟨hg, fun ⟨j, hj, h0⟩ => hall j hj h0⟩
  · rintro ⟨hg, hno⟩
    exact ⟨hg, fun j hj h0 => hno ⟨j, hj, h0⟩⟩

/-! ### The consistency checks -/

theorem checkExposures_of_length_ne (numImages : Nat) (s : MetaState)
    (h : s.timestamps.length ≠ numImages) :
    checkExposures numImages s = { timestamps := [], exposures := [] } := by
  have h2 : numImages ≠ s.timestamps.length := fun e => h e.symm
  unfold checkExposures
  simp only [if_pos h2]
  split_ifs <;> rfl

theorem checkExposures_of_length_eq (numImages : Nat) (s : MetaState)
    (h : s.timestamps.length = numImages) :
    checkExposures numImages s =
      { timestamps := s.timestamps,
        exposures :=
          if s.exposures.length = numImages ∧ (0 : ℚ) ∉ repairedExposures s.exposures then
            repairedExposures s.exposures
          else [] } := by
  have h2 : ¬ (numImages ≠ s.timestamps.length) := fun e => e h.symm
  unfold checkExposures
  simp only [if_neg h2]
  by_cases hgood : s.exposures.length = numImages ∧ (0 : ℚ) ∉ repairedExposures s.exposures
  · have hflag := (repairLoop_snd s.exposures (decide (s.exposures.length = numImages))).mpr
      ⟨by simp [hgood.1], hgood.2⟩
    rw [if_pos hgood, if_neg, repairLoop_fst_eq]
    rintro (hne | hf)
    · exact hne (by rw [length_repairLoop]; exact hgood.1.symm)
    · rw [hflag] at hf; exact absurd hf (by decide)
  · rw [if_neg hgood, if_pos]
    by_cases hlen : s.exposures.length = numImages
    · right
      have hmem : (0 : ℚ) ∈ repairedExposures s.exposures := by
        by_contra hno
        exact hgood ⟨hlen, hno⟩
      cases hf : (repairLoop s.exposures (decide (s.exposures.length = numImages))).2 with
      | false => rfl
      | true => exact absurd ((repairLoop_snd _ _).mp hf).2 (fun hno => hno hmem)
    · left
      rw [length_repairLoop]
      exact fun e => hlen e.symm

/-! ### Claims on `loadTimestamps` -/

/-- C1. When the number of lines of `times.txt` that parsed differs from the frame
count, `loadTimestamps` leaves both the timestamp and the exposure vector empty,
whatever the parsed exposures were. -/
theorem loadTimestamps_count_mismatch (numImages : Nat) (lines : List TimesLine)
    (h : (lines.filterMap lineStamp).length ≠ numImages) :
    (loadTimestamps numImages lines).timestamps = [] ∧
      (loadTimestamps numImages lines).exposures = [] := by
  unfold loadTimestamps
  rw [checkExposures_of_length_ne numImages (readTimes lines)
    (by rw [readTimes_timestamps]; exact h)]
  exact ⟨rfl, rfl⟩

theorem loadTimestamps_count_mismatch_witness :
    ([TimesLine.three 1 5, TimesLine.skipped].filterMap lineStamp).length ≠ 2 ∧
      (loadTimestamps 2 [TimesLine.three 1 5, TimesLine.skipped]).timestamps = [] ∧
      (loadTimestamps 2 [TimesLine.three 1 5, TimesLine.skipped]).exposures = [] :=
  ⟨by decide, loadTimestamps_count_mismatch 2 [TimesLine.three 1 5, TimesLine.skipped]
    (by decide)⟩

/-- C2. With a positive frame count `N`, exactly `N` parsed lines and a zero left in
the exposure vector by the repair loop, `loadTimestamps` keeps the `N` parsed time
stamps in file order and leaves the exposure vector empty. -/
theorem loadTimestamps_zero_exposure (numImages : Nat) (lines : List TimesLine)
    (hN : 0 < numImages)
    (hlen : (lines.filterMap lineStamp).length = numImages)
    (hzero : (0 : ℚ) ∈ repairedExposures (lines.filterMap lineExposure)) :
    (loadTimestamps numImages lines).timestamps = lines.filterMap lineStamp ∧
      (loadTimestamps numImages lines).timestamps.length = numImages ∧
      (loadTimestamps numImages lines).exposures = [] := by
  have _ := hN
  unfold loadTimestamps
  rw [checkExposures_of_length_eq numImages (readTimes lines)
    (by rw [readTimes_timestamps]; exact hlen)]
  rw [readTimes_timestamps, readTimes_exposures]
  refine ⟨rfl, hlen, ?_⟩
  show (if _ then _ else _) = _
  rw [if_neg]
  exact fun hc => hc.2 hzero

theorem repairedExposures_single_zero : repairedExposures [0] = [0] := by
  simp [repairedExposures, repairLoop, repairBody, fixExposure, List.range, List.range.loop]

theorem repairedExposures_example :
    repairedExposures [0, 5, 0, 0, 8, 0] = [5, 5, 5, 13 / 2, 8, 8] := by
  simp [repairedExposures, repairLoop, repairBody, fixExposure, List.range, List.range.loop]
  norm_num

theorem loadTimestamps_single_two :
    loadTimestamps 1 [TimesLine.two 7] = { timestamps := [7], exposures := [] } := by
  unfold loadTimestamps
  rw [checkExposures_of_length_eq 1 (readTimes [TimesLine.two 7]) (by decide)]
  have he : (readTimes [TimesLine.two 7]).exposures = [0] := by decide
  have ht : (readTimes [TimesLine.two 7]).timestamps = [7] := by decide
  rw [he, ht, repairedExposures_single_zero]
  simp

theorem loadTimestamps_zero_exposure_witness :
    0 < 1 ∧ ([TimesLine.two 7].filterMap lineStamp).length = 1 ∧
      (0 : ℚ) ∈ repairedExposures ([TimesLine.two 7].filterMap lineExposure) ∧
      (loadTimestamps 1 [TimesLine.two 7]).timestamps = [TimesLine.two 7].filterMap lineStamp ∧
      (loadTimestamps 1 [TimesLine.two 7]).timestamps.length = 1 ∧
      (loadTimestamps 1 [TimesLine.two 7]).exposures = [] :=
  ⟨by decide, by decide,
    by simp [lineExposure, repairedExposures_single_zero],
    loadTimestamps_zero_exposure 1 [TimesLine.two 7] (by decide) (by decide)
      (by simp [lineExposure, repairedExposures_single_zero])⟩

/-- C3, as stated, fails: with one frame and the single line `0 7` (no exposure field)
the timestamp vector is `[7]` and the exposure vector is empty. -/
theorem loadTimestamps_not_both_or_neither :
    ¬ (((loadTimestamps 1 [TimesLine.two 7]).timestamps = [] ∧
          (loadTimestamps 1 [TimesLine.two 7]).exposures = []) ∨
        ((loadTimestamps 1 [TimesLine.two 7]).timestamps.length = 1 ∧
          (loadTimestamps 1 [TimesLine.two 7]).exposures.length = 1)) := by
  rw [loadTimestamps_single_two]
  simp

/-- C3, amended. The state left by `loadTimestamps` has one of three shapes: both
vectors empty; the timestamp vector `N` long and the exposure vector empty; both
vectors `N` long. Exposures are never populated without timestamps. -/
theorem loadTimestamps_shapes (numImages : Nat) (lines : List TimesLine) :
    ((loadTimestamps numImages lines).timestamps = [] ∧
        (loadTimestamps numImages lines).exposures = []) ∨
      ((loadTimestamps numImages lines).timestamps.length = numImages ∧
        (loadTimestamps numImages lines).exposures = []) ∨
      ((loadTimestamps numImages lines).timestamps.length = numImages ∧
        (loadTimestamps numImages lines).exposures.length = numImages) := by
  by_cases hlen : (readTimes lines).timestamps.length = numImages
  · unfold loadTimestamps
    rw [checkExposures_of_length_eq numImages (readTimes lines) hlen]
    by_cases hgood : (readTimes lines).exposures.length = numImages ∧
        (0 : ℚ) ∉ repairedExposures (readTimes lines).exposures
    · right; right
      refine ⟨hlen, ?_⟩
      show (if _ then _ else _ : List ℚ).length = _
      rw [if_pos hgood, length_repairedExposures]
      exact hgood.1
    · right; left
      refine ⟨hlen, ?_⟩
      show (if _ then _ else _ : List ℚ) = _
      rw [if_neg hgood]
  · left
    unfold loadTimestamps
    rw [checkExposures_of_length_ne numImages (readTimes lines) hlen]
    exact ⟨rfl, rfl⟩

/-- C4, as stated, fails on its own example: the loop repairs in place, so when it
reaches index 3 of `[0, 5, 0, 0, 8, 0]` the left neighbour already holds the
repaired value 5, and index 3 becomes `(5 + 8) / 2`, not 8. -/
theorem repair_example_index_three :
    (repairedExposures [0, 5, 0, 0, 8, 0]).getD 2 0 = 5 ∧
      (repairedExposures [0, 5, 0, 0, 8, 0]).getD 3 0 = 13 / 2 ∧
      (repairedExposures [0, 5, 0, 0, 8, 0]).getD 3 0 ≠ 8 := by
  rw [repairedExposures_example]
  norm_num

theorem averageOfPositive_congr_left {hasLeft : Prop} [Decidable hasLeft] {l l' : ℚ}
    (hasRight : Prop) [Decidable hasRight] (r : ℚ) (h : hasLeft → l = l') :
    averageOfPositive hasLeft l hasRight r = averageOfPositive hasLeft l' hasRight r := by
  by_cases hl : hasLeft
  · rw [h hl]
  · simp [averageOfPositive, hl]

/-- C4, amended. After the repair loop a non-zero parsed entry is unchanged, and a
zero entry at index `i` holds the average of those of two values that are strictly
positive: the entry at `i-1` as already repaired (when `i > 0`) and the entry at
`i+1` as parsed (when in range); it stays zero when neither is positive. -/
theorem repair_in_place (ex : List ℚ) (i : Nat) (h : i < ex.length) :
    (repairedExposures ex).getD i 0 =
      if ex.getD i 0 = 0 then
        averageOfPositive (0 < i) ((repairedExposures ex).getD (i - 1) 0)
          (i + 1 < ex.length) (ex.getD (i + 1) 0)
      else ex.getD i 0 := by
  have hprev : 0 < i → ((List.range i).foldl repairBody (ex, true)).1.getD (i - 1) 0
      = (repairedExposures ex).getD (i - 1) 0 := by
    intro hi
    unfold repairedExposures
    rw [repairLoop_eq_foldl, getD_foldl_range_of_lt ex true (by omega : i - 1 < i),
      getD_foldl_range_of_lt ex true (by omega : i - 1 < ex.length)]
  unfold repairedExposures
  rw [repairLoop_eq_foldl, getD_foldl_range_of_lt ex true h, foldl_range_succ]
  simp only [repairBody]
  rw [getD_fixExposure_self _ (by rw [length_foldl_range]; exact h), length_foldl_range,
    getD_foldl_range_of_le ex true (le_refl i),
    getD_foldl_range_of_le ex true (by omega : i ≤ i + 1),
    averageOfPositive_congr_left _ _ hprev]
  rfl

theorem repair_in_place_witness :
    3 < ([0, 5, 0, 0, 8, 0] : List ℚ).length ∧
      (repairedExposures [0, 5, 0, 0, 8, 0]).getD 3 0 =
        if ([0, 5, 0, 0, 8, 0] : List ℚ).getD 3 0 = 0 then
          averageOfPositive (0 < 3) ((repairedExposures [0, 5, 0, 0, 8, 0]).getD (3 - 1) 0)
            (3 + 1 < ([0, 5, 0, 0, 8, 0] : List ℚ).length)
            (([0, 5, 0, 0, 8, 0] : List ℚ).getD (3 + 1) 0)
        else ([0, 5, 0, 0, 8, 0] : List ℚ).getD 3 0 :=
  ⟨by decide, repair_in_place [0, 5, 0, 0, 8, 0] 3 (by decide)⟩

/-! ### Lemmas and claims on the pose conversion -/


/-- The homogeneous form of the rotation matrix of a quaternion. -/
theorem toRotationMatrix_of_unit (q : Quat) (h : q.squaredNorm = 1) :
    q.toRotationMatrix =
      ⟨q.w * q.w + q.x * q.x - q.y * q.y - q.z * q.z, 2 * (q.x * q.y - q.w * q.z),
        2 * (q.x * q.z + q.w * q.y),
       2 * (q.x * q.y + q.w * q.z), q.w * q.w - q.x * q.x + q.y * q.y - q.z * q.z,
        2 * (q.y * q.z - q.w * q.x),
       2 * (q.x * q.z - q.w * q.y), 2 * (q.y * q.z + q.w * q.x),
        q.w * q.w - q.x * q.x - q.y * q.y + q.z * q.z⟩ := by
  unfold Quat.squaredNorm at h
  unfold Quat.toRotationMatrix
  ext <;> simp only <;> first | ring1 | linear_combination -h

theorem det_toRotationMatrix (q : Quat) (h : q.squaredNorm = 1) :
    q.toRotationMatrix.det = 1 := by
  rw [toRotationMatrix_of_unit q h]
  unfold Quat.squaredNorm at h
  have h3 : (q.w * q.w + q.x * q.x + q.y * q.y + q.z * q.z) ^ 3 = 1 := by rw [h]; norm_num
  simp only [Mat3.det]
  linear_combination h3

theorem inverse_toRotationMatrix (q : Quat) (h : q.squaredNorm = 1) :
    q.toRotationMatrix.inverse = q.toRotationMatrix.transpose := by
  have hd := det_toRotationMatrix q h
  unfold Mat3.inverse
  rw [hd, toRotationMatrix_of_unit q h]
  unfold Quat.squaredNorm at h
  ext <;> simp only [Mat3.transpose, Mat3.det]
  · linear_combination (q.w * q.w + q.x * q.x - q.y * q.y - q.z * q.z) * h
  · linear_combination (2 * (q.x * q.y + q.w * q.z)) * h
  · linear_combination (2 * (q.x * q.z - q.w * q.y)) * h
  · linear_combination (2 * (q.x * q.y - q.w * q.z)) * h
  · linear_combination (q.w * q.w - q.x * q.x + q.y * q.y - q.z * q.z) * h
  · linear_combination (2 * (q.y * q.z + q.w * q.x)) * h
  · linear_combination (2 * (q.x * q.z + q.w * q.y)) * h
  · linear_combination (2 * (q.y * q.z - q.w * q.x)) * h
  · linear_combination (q.w * q.w - q.x * q.x - q.y * q.y + q.z * q.z) * h

theorem transpose_mul_toRotationMatrix (q : Quat) (h : q.squaredNorm = 1) :
    q.toRotationMatrix.transpose.mul q.toRotationMatrix = Mat3.identity := by
  rw [toRotationMatrix_of_unit q h]
  unfold Quat.squaredNorm at h
  have h2 : (q.w * q.w + q.x * q.x + q.y * q.y + q.z * q.z) ^ 2 = 1 := by rw [h]; norm_num
  ext <;> simp only [Mat3.transpose, Mat3.mul, Mat3.identity] <;>
    first | ring1 | linear_combination h2

theorem mul_transpose_toRotationMatrix (q : Quat) (h : q.squaredNorm = 1) :
    q.toRotationMatrix.mul q.toRotationMatrix.transpose = Mat3.identity := by
  rw [toRotationMatrix_of_unit q h]
  unfold Quat.squaredNorm at h
  have h2 : (q.w * q.w + q.x * q.x + q.y * q.y + q.z * q.z) ^ 2 = 1 := by rw [h]; norm_num
  ext <;> simp only [Mat3.transpose, Mat3.mul, Mat3.identity] <;>
    first | ring1 | linear_combination h2

theorem mulVec_mul (a b : Mat3) (v : Vec3) : (a.mul b).mulVec v = a.mulVec (b.mulVec v) := by
  ext <;> simp only [Mat3.mul, Mat3.mulVec] <;> ring

theorem mulVec_neg (a : Mat3) (v : Vec3) : a.mulVec v.neg = (a.mulVec v).neg := by
  ext <;> simp only [Mat3.mulVec, Vec3.neg] <;> ring

theorem identity_mulVec (v : Vec3) : Mat3.identity.mulVec v = v := by
  ext <;> simp only [Mat3.mulVec, Mat3.identity] <;> ring

theorem neg_add_self (v : Vec3) : v.neg.add v = Vec3.zero := by
  ext <;> simp only [Vec3.neg, Vec3.add, Vec3.zero] <;> ring

theorem add_neg_self_vec (v : Vec3) : v.add v.neg = Vec3.zero := by
  ext <;> simp only [Vec3.neg, Vec3.add, Vec3.zero] <;> ring

theorem add_zero_vec (v : Vec3) : v.add Vec3.zero = v := by
  ext <;> simp only [Vec3.add, Vec3.zero] <;> ring

theorem det_mul (a b : Mat3) : (a.mul b).det = a.det * b.det := by
  simp only [Mat3.mul, Mat3.det]; ring

theorem det_transpose (a : Mat3) : a.transpose.det = a.det := by
  simp only [Mat3.transpose, Mat3.det]; ring

theorem transpose_mul (a b : Mat3) : (a.mul b).transpose = b.transpose.mul a.transpose := by
  ext <;> simp only [Mat3.mul, Mat3.transpose] <;> ring

theorem transpose_transpose (a : Mat3) : a.transpose.transpose = a := rfl

theorem mul_assoc_mat (a b c : Mat3) : (a.mul b).mul c = a.mul (b.mul c) := by
  ext <;> simp only [Mat3.mul] <;> ring

theorem mul_identity (a : Mat3) : a.mul Mat3.identity = a := by
  ext <;> simp only [Mat3.mul, Mat3.identity] <;> ring

theorem identity_mul (a : Mat3) : Mat3.identity.mul a = a := by
  ext <;> simp only [Mat3.mul, Mat3.identity] <;> ring

theorem det_linearB2D : linearB2D.det = -1 := by
  simp only [linearB2D, Mat3.det]; norm_num

theorem transpose_mul_linearB2D : linearB2D.transpose.mul linearB2D = Mat3.identity := by
  ext <;> simp only [linearB2D, Mat3.transpose, Mat3.mul, Mat3.identity] <;> norm_num

theorem squaredNorm_identity : Quat.identity.squaredNorm = 1 := by
  simp only [Quat.identity, Quat.squaredNorm]; norm_num

theorem toRotationMatrix_identity : Quat.identity.toRotationMatrix = Mat3.identity := by
  ext <;> simp only [Quat.identity, Quat.toRotationMatrix, Mat3.identity] <;> norm_num

/-- The rotation and translation handed to `SE3`, for a unit quaternion. -/
theorem convertPose_of_unit (t : Vec3) (q : Quat) (hq : q.squaredNorm = 1) :
    convertPose t q =
      ⟨linearB2D.mul q.toRotationMatrix.transpose,
        ((linearB2D.mul q.toRotationMatrix.transpose).mulVec t).neg⟩ := by
  unfold convertPose
  simp only [Affine3.mul, Affine3.inverse, blender2DSO, Affine3.identity]
  rw [inverse_toRotationMatrix q hq, mulVec_neg, add_zero_vec, mulVec_mul]

/-- The inverse computed on line 419 is the inverse of the transform it is applied to. -/
theorem inverse_is_inverse (t : Vec3) (q : Quat) (hq : q.squaredNorm = 1) :
    (Affine3.mk q.toRotationMatrix t).mul (Affine3.mk q.toRotationMatrix t).inverse
        = Affine3.identity ∧
      (Affine3.mk q.toRotationMatrix t).inverse.mul (Affine3.mk q.toRotationMatrix t)
        = Affine3.identity := by
  simp only [Affine3.mul, Affine3.inverse, Affine3.identity]
  rw [inverse_toRotationMatrix q hq, mul_transpose_toRotationMatrix q hq,
    transpose_mul_toRotationMatrix q hq, mulVec_neg, ← mulVec_mul,
    mul_transpose_toRotationMatrix q hq, identity_mulVec, neg_add_self, add_neg_self_vec]
  exact ⟨rfl, rfl⟩

theorem readPoses_eq (lines : List (Option PoseRecord)) :
    readPoses lines = (lines.filterMap id).map (fun r => convertPose r.loc r.quat) := by
  unfold readPoses
  have h : ∀ (ls : List (Option PoseRecord)) (acc : List SE3),
      ls.foldl (fun poses line =>
          match line with
          | some r => poses ++ [convertPose r.loc r.quat]
          | none => poses) acc
        = acc ++ (ls.filterMap id).map (fun r => convertPose r.loc r.quat) := by
    intro ls
    induction ls with
    | nil => intro acc; simp
    | cons l ls ih =>
      intro acc
      cases l with
      | none => simpa using ih acc
      | some r => simp [ih]
  simpa using h lines []

/-- The arguments of the constructor call of line 438, for a unit quaternion `q` and a
translation `t`: they are the parts of `B · C`, where `C` is the inverse of the
transform `W = (R(q), t)` and `B` is the constant matrix with rows `(-1,0,0)`,
`(0,0,-1)`, `(0,1,0)`; the matrix is `B · R(q)ᵀ` and the vector `-(B · R(q)ᵀ · t)`.
For the identity quaternion and zero translation they are `B` and zero. -/
theorem convertPose_is_basis_change_of_inverse (t : Vec3) (q : Quat)
    (hq : q.squaredNorm = 1) :
    ((Affine3.mk q.toRotationMatrix t).mul (Affine3.mk q.toRotationMatrix t).inverse
          = Affine3.identity ∧
        (Affine3.mk q.toRotationMatrix t).inverse.mul (Affine3.mk q.toRotationMatrix t)
          = Affine3.identity) ∧
      convertPose t q =
        ⟨(blender2DSO.mul (Affine3.mk q.toRotationMatrix t).inverse).linear,
          (blender2DSO.mul (Affine3.mk q.toRotationMatrix t).inverse).translation⟩ ∧
      blender2DSO = ⟨⟨-1, 0, 0, 0, 0, -1, 0, 1, 0⟩, Vec3.zero⟩ ∧
      (convertPose t q).rotation = linearB2D.mul q.toRotationMatrix.transpose ∧
      (convertPose t q).translation
        = ((linearB2D.mul q.toRotationMatrix.transpose).mulVec t).neg ∧
      convertPose Vec3.zero Quat.identity = ⟨linearB2D, Vec3.zero⟩ := by
  refine ⟨inverse_is_inverse t q hq, rfl, rfl, ?_, ?_, ?_⟩
  · rw [convertPose_of_unit t q hq]
  · rw [convertPose_of_unit t q hq]
  · rw [convertPose_of_unit _ _ squaredNorm_identity, toRotationMatrix_identity]
    simp only [Mat3.transpose, Mat3.identity, linearB2D, Mat3.mul, Mat3.mulVec, Vec3.zero,
      Vec3.neg]
    norm_num

theorem convertPose_is_basis_change_of_inverse_witness :
    (⟨3 / 5, 4 / 5, 0, 0⟩ : Quat).squaredNorm = 1 ∧
      (convertPose ⟨1, 2, 3⟩ ⟨3 / 5, 4 / 5, 0, 0⟩).rotation
        = linearB2D.mul (⟨3 / 5, 4 / 5, 0, 0⟩ : Quat).toRotationMatrix.transpose :=
  ⟨by simp only [Quat.squaredNorm]; norm_num,
    (convertPose_is_basis_change_of_inverse ⟨1, 2, 3⟩ ⟨3 / 5, 4 / 5, 0, 0⟩
      (by simp only [Quat.squaredNorm]; norm_num)).2.2.2.1⟩

/-- The matrix of a quaternion, unit or not, has a determinant that is a sum of two
squares. -/
theorem det_toRotationMatrix_eq (u : Quat) :
    u.toRotationMatrix.det
      = (1 - 2 * (u.x * u.x + u.y * u.y + u.z * u.z)) ^ 2
        + (2 * u.w) ^ 2 * (u.x * u.x + u.y * u.y + u.z * u.z) := by
  simp only [Quat.toRotationMatrix, Mat3.det]
  ring

theorem det_toRotationMatrix_nonneg (u : Quat) : 0 ≤ u.toRotationMatrix.det := by
  rw [det_toRotationMatrix_eq]
  have h1 : 0 ≤ u.x * u.x + u.y * u.y + u.z * u.z := by
    nlinarith [mul_self_nonneg u.x, mul_self_nonneg u.y, mul_self_nonneg u.z]
  have h2 : 0 ≤ (2 * u.w) ^ 2 * (u.x * u.x + u.y * u.y + u.z * u.z) :=
    mul_nonneg (sq_nonneg _) h1
  nlinarith [sq_nonneg (1 - 2 * (u.x * u.x + u.y * u.y + u.z * u.z))]

/-- No stored pose has the rotation the code computes for a unit quaternion: the
computed block has determinant `-1`, the matrix of a quaternion never has. -/
theorem rotationMatrix_ne_convertPose (p : StoredSE3) (t : Vec3) (q : Quat)
    (hq : q.squaredNorm = 1) :
    p.rotationMatrix ≠ (convertPose t q).rotation := by
  intro h
  have hdet : (convertPose t q).rotation.det = -1 := by
    rw [convertPose_of_unit t q hq]
    show (linearB2D.mul q.toRotationMatrix.transpose).det = -1
    rw [det_mul, det_transpose, det_toRotationMatrix q hq, det_linearB2D]
    norm_num
  have hnn := det_toRotationMatrix_nonneg p.unit_quaternion
  unfold StoredSE3.rotationMatrix at h
  rw [h, hdet] at hnn
  norm_num at hnn

theorem readPoses_identity_line :
    readPoses [some ⟨0, Vec3.zero, Quat.identity⟩] = [⟨linearB2D, Vec3.zero⟩] := by
  have h : convertPose Vec3.zero Quat.identity = ⟨linearB2D, Vec3.zero⟩ := by
    rw [convertPose_of_unit _ _ squaredNorm_identity, toRotationMatrix_identity]
    simp only [Mat3.transpose, Mat3.identity, linearB2D, Mat3.mul, Mat3.mulVec, Vec3.zero,
      Vec3.neg]
    norm_num
  simp only [readPoses, List.foldl_cons, List.foldl_nil, List.nil_append, h]

/-- C5. The claim fails on the pose file with the single line `0,0,0,0,1,0,0,0` (zero
translation, identity quaternion). The code computes `B · C = (B, 0)` and hands the
block `B`, of determinant `-1`, to the `SE3` constructor of line 438. Whatever
quaternion the constructor derives from it, the pose pushed on line 441 keeps the zero
translation but its rotation matrix has a non-negative determinant, so the stored
rotation is not `B`. -/
theorem stored_pose_is_not_basis_change :
    readPoses [some ⟨0, Vec3.zero, Quat.identity⟩] = [⟨linearB2D, Vec3.zero⟩] ∧
      linearB2D.det = -1 ∧
      ∀ (toQuaternion : Mat3 → Option Quat) (stored : List StoredSE3),
        storedCameraPoses toQuaternion [some ⟨0, Vec3.zero, Quat.identity⟩] = some stored →
        ∃ p : StoredSE3, stored = [p] ∧ p.translation = Vec3.zero ∧
          0 ≤ p.rotationMatrix.det ∧ p.rotationMatrix ≠ linearB2D := by
  refine ⟨readPoses_identity_line, det_linearB2D, ?_⟩
  intro toQuaternion stored hstored
  unfold storedCameraPoses at hstored
  rw [readPoses_identity_line] at hstored
  simp only [constructAll, constructSE3] at hstored
  cases hq : toQuaternion linearB2D with
  | none => rw [hq] at hstored; simp at hstored
  | some u =>
    rw [hq] at hstored
    simp only [Option.some.injEq] at hstored
    refine ⟨⟨u, Vec3.zero⟩, hstored.symm, rfl, det_toRotationMatrix_nonneg u, ?_⟩
    intro h
    have hnn := det_toRotationMatrix_nonneg u
    unfold StoredSE3.rotationMatrix at h
    rw [h, det_linearB2D] at hnn
    norm_num at hnn

theorem stored_pose_is_not_basis_change_witness :
    storedCameraPoses (fun _ => some Quat.identity) [some ⟨0, Vec3.zero, Quat.identity⟩]
        = some [⟨Quat.identity, Vec3.zero⟩] ∧
      ∃ p : StoredSE3, [(⟨Quat.identity, Vec3.zero⟩ : StoredSE3)] = [p] ∧
        p.translation = Vec3.zero ∧ 0 ≤ p.rotationMatrix.det ∧
        p.rotationMatrix ≠ linearB2D := by
  have h : storedCameraPoses (fun _ => some Quat.identity)
      [some ⟨0, Vec3.zero, Quat.identity⟩] = some [⟨Quat.identity, Vec3.zero⟩] := by
    unfold storedCameraPoses
    rw [readPoses_identity_line]
    rfl
  exact ⟨h, stored_pose_is_not_basis_change.2.2 (fun _ => some Quat.identity) _ h⟩

/-- C6. For a unit quaternion the rotation block stored by `loadCameraPoses` is
orthonormal but its determinant is `-1`, not `+1`: the constant `linearB2D` is a
reflection (orthogonal with determinant `-1`), so the stored block is not the
rotation of a rigid transform. -/
theorem stored_rotation_is_improper (t : Vec3) (q : Quat) (hq : q.squaredNorm = 1) :
    (convertPose t q).rotation.transpose.mul (convertPose t q).rotation = Mat3.identity ∧
      (convertPose t q).rotation.det = -1 ∧
      linearB2D.transpose.mul linearB2D = Mat3.identity ∧
      linearB2D.det = -1 := by
  rw [convertPose_of_unit t q hq]
  refine ⟨?_, ?_, transpose_mul_linearB2D, det_linearB2D⟩
  · show (linearB2D.mul q.toRotationMatrix.transpose).transpose.mul
      (linearB2D.mul q.toRotationMatrix.transpose) = Mat3.identity
    rw [transpose_mul, transpose_transpose, mul_assoc_mat,
      ← mul_assoc_mat linearB2D.transpose, transpose_mul_linearB2D, identity_mul,
      mul_transpose_toRotationMatrix q hq]
  · show (linearB2D.mul q.toRotationMatrix.transpose).det = -1
    rw [det_mul, det_transpose, det_toRotationMatrix q hq, det_linearB2D]
    norm_num

theorem stored_rotation_is_improper_witness :
    Quat.identity.squaredNorm = 1 ∧
      (convertPose Vec3.zero Quat.identity).rotation.det = -1 :=
  ⟨squaredNorm_identity,
    (stored_rotation_is_improper Vec3.zero Quat.identity squaredNorm_identity).2.1⟩

/-! ### Lemmas and claims on `getdir` -/

theorem string_append_le_append (p : String) {a b : String} (h : a ≤ b) : p ++ a ≤ p ++ b := by
  rcases lt_or_eq_of_le h with hlt | heq
  · apply le_of_lt
    rw [String.lt_iff_toList_lt] at hlt ⊢
    simp only [String.toList, String.data_append]
    exact List.Lex.append_left _ hlt _
  · rw [heq]

theorem rootFiles_eq_map (dir : String) (l : List String)
    (h : ∀ f ∈ l, f.length ≠ 0 ∧ f.front ≠ '/') :
    rootFiles dir l = some (l.map (fun f => dir ++ f)) := by
  induction l with
  | nil => rfl
  | cons f fs ih =>
    have hf := h f (List.mem_cons_self f fs)
    have ih2 := ih (fun g hg => h g (List.mem_cons_of_mem f hg))
    simp only [rootFiles, if_neg hf.1, ih2, if_pos hf.2, List.map_cons]

theorem sorted_map_prepend (dir : String) (l : List String) (h : l.Sorted (· ≤ ·)) :
    (l.map (fun f => dir ++ f)).Sorted (· ≤ ·) := by
  unfold List.Sorted at h ⊢
  rw [List.pairwise_map]
  exact h.imp (fun hab => string_append_le_append dir hab)

theorem getdir_example :
    getdir "./d" (some ["a", "..", "/x", "."]) [] = .returned 2 ["/x", "./d/a"] := by
  have h2 : ¬ ("a" : String) ≤ "/x" := by rw [String.le_iff_toList_le]; decide
  have hf : (["a", "..", "/x", "."] : List String).filter
      (fun name => decide (name ≠ ".") && decide (name ≠ "..")) = ["a", "/x"] := by decide
  unfold getdir
  simp only [hf, List.nil_append, List.insertionSort, List.orderedInsert, h2, if_false]
  decide

/-- Remark on the branch of line 71. The names are sorted first and `dir` is put in
front afterwards, so the order of the final strings rests on no name starting with
`/`: were the enumeration to yield `a`, `..`, `/x`, `.` for the directory `./d`, the
vector left would be `["/x", "./d/a"]`. A name returned by `readdir` is a single path
component and never starts with `/`. -/
theorem getdir_absolute_name_unsorted :
    ∃ files : List String,
      getdir "./d" (some ["a", "..", "/x", "."]) [] = .returned 2 files ∧
      ¬ files.Sorted (· ≤ ·) := by
  refine ⟨["/x", "./d/a"], getdir_example, ?_⟩
  have h : ¬ ("/x" : String) ≤ "./d/a" := by rw [String.le_iff_toList_le]; decide
  intro hs
  exact h (List.rel_of_sorted_cons hs "./d/a" (List.mem_singleton_self _))

/-- C8. For a directory that `opendir` opens (its path is not empty) and the entry
names `readdir` returns (each a non-empty single path component, so none starts with
`/`), `getdir` called on an empty vector returns, and the locators it leaves (every
name other than `.` and `..`, with the directory path and a separating `/` in front)
are in ascending lexicographic order of the final strings. -/
theorem getdir_sorted (dir : String) (names : List String)
    (hdir : dir.length ≠ 0)
    (hnames : ∀ name ∈ names, name.length ≠ 0 ∧ name.front ≠ '/') :
    ∃ files : List String,
      getdir dir (some names) [] = .returned files.length files ∧
      files.Sorted (· ≤ ·) ∧
      ∀ f, f ∈ files ↔
        ∃ name ∈ names, name ≠ "." ∧ name ≠ ".." ∧ f = withSlash dir ++ name := by
  have hall : ∀ f ∈ ([] ++ names.filter
      (fun name => decide (name ≠ ".") && decide (name ≠ ".."))).insertionSort (· ≤ ·),
      f.length ≠ 0 ∧ f.front ≠ '/' := by
    intro f hf
    rw [(List.perm_insertionSort _ _).mem_iff, List.nil_append] at hf
    exact hnames f (List.mem_of_mem_filter hf)
  refine ⟨(([] ++ names.filter
      (fun name => decide (name ≠ ".") && decide (name ≠ ".."))).insertionSort (· ≤ ·)).map
        (fun f => withSlash dir ++ f), ?_, ?_, ?_⟩
  · unfold getdir
    simp only [if_neg hdir]
    rw [rootFiles_eq_map _ _ hall]
  · exact sorted_map_prepend _ _ (List.sorted_insertionSort _ _)
  · intro f
    rw [List.mem_map]
    constructor
    · rintro ⟨name, hname, rfl⟩
      rw [(List.perm_insertionSort _ _).mem_iff, List.nil_append, List.mem_filter] at hname
      obtain ⟨hmem, hkeep⟩ := hname
      simp only [Bool.and_eq_true, decide_eq_true_eq] at hkeep
      exact ⟨name, hmem, hkeep.1, hkeep.2, rfl⟩
    · rintro ⟨name, hmem, h1, h2, rfl⟩
      refine ⟨name, ?_, rfl⟩
      rw [(List.perm_insertionSort _ _).mem_iff, List.nil_append, List.mem_filter]
      exact ⟨hmem, by simp [h1, h2]⟩

theorem getdir_sorted_witness :
    ("img".length ≠ 0 ∧
        ∀ name ∈ ["b.png", ".", "a.png"], name.length ≠ 0 ∧ name.front ≠ '/') ∧
      ∃ files : List String,
        getdir "img" (some ["b.png", ".", "a.png"]) [] = .returned files.length files ∧
        files.Sorted (· ≤ ·) ∧
        ∀ f, f ∈ files ↔
          ∃ name ∈ ["b.png", ".", "a.png"],
            name ≠ "." ∧ name ≠ ".." ∧ f = withSlash "img" ++ name :=
  ⟨⟨by decide, by decide⟩,
    getdir_sorted "img" ["b.png", ".", "a.png"] (by decide) (by decide)⟩

/-! ### Lemmas and claims on `getTimestamp` -/

theorem checkExposures_timestamps (numImages : Nat) (s : MetaState) :
    (checkExposures numImages s).timestamps = [] ∨
      ((checkExposures numImages s).timestamps = s.timestamps ∧
        s.timestamps.length = numImages) := by
  by_cases h : s.timestamps.length = numImages
  · right
    rw [checkExposures_of_length_eq numImages s h]
    exact ⟨rfl, h⟩
  · left
    rw [checkExposures_of_length_ne numImages s h]

theorem create_timestamps (numImages : Nat) (timesLines : List TimesLine)
    (poseLines : List (Option PoseRecord)) :
    (ImageFolderReader.create numImages timesLines poseLines).timestamps = [] ∨
      (ImageFolderReader.create numImages timesLines poseLines).timestamps.length
        = numImages := by
  show (checkExposures numImages (loadTimestamps numImages timesLines)).timestamps = [] ∨
    (checkExposures numImages (loadTimestamps numImages timesLines)).timestamps.length
      = numImages
  rcases checkExposures_timestamps numImages (loadTimestamps numImages timesLines) with
    h | ⟨h1, h2⟩
  · left; exact h
  · right; rw [h1]; exact h2

theorem create_no_times (numImages : Nat) (h : numImages ≠ 0) :
    (ImageFolderReader.create numImages [] []).timestamps = [] := by
  show (checkExposures numImages (loadTimestamps numImages [])).timestamps = []
  have h1 : loadTimestamps numImages [] = { timestamps := [], exposures := [] } := by
    unfold loadTimestamps
    rw [checkExposures_of_length_ne numImages (readTimes []) (fun e => h e.symm)]
  rw [h1, checkExposures_of_length_ne numImages { timestamps := [], exposures := [] }
    (fun e => h e.symm)]

/-! ### Lemmas on the single-precision rounding -/

theorem floatQuantum_eq (x : ℚ) (k : Nat) :
    ∀ (fuel : Nat) (q : ℚ), 0 < q → k ≤ fuel → q * 2 ^ k * 2 ^ 23 ≤ |x| →
      |x| < q * 2 ^ k * 2 ^ 24 → floatQuantum x fuel q = q * 2 ^ k := by
  induction k with
  | zero =>
    intro fuel q _ _ _ hlt
    have hlt2 : |x| < q * 2 ^ 24 := by simpa using hlt
    cases fuel with
    | zero => simp [floatQuantum]
    | succ f => simp [floatQuantum, hlt2]
  | succ k ih =>
    intro fuel q hq hk hle hlt
    cases fuel with
    | zero => omega
    | succ f =>
      have hge : ¬ |x| < q * 2 ^ 24 := by
        have h1 : q * 2 ^ 24 ≤ q * 2 ^ (k + 1) * 2 ^ 23 := by
          have h2 : (1 : ℚ) ≤ 2 ^ k := one_le_pow₀ (by norm_num)
          have h3 : q * 2 ^ (k + 1) * 2 ^ 23 = q * 2 ^ 24 * 2 ^ k := by ring
          rw [h3]
          nlinarith [mul_pos hq (by norm_num : (0 : ℚ) < 2 ^ 24)]
        linarith
      rw [floatQuantum, if_neg hge, ih f (2 * q) (by linarith) (by omega)
        (by rw [show 2 * q * 2 ^ k * 2 ^ 23 = q * 2 ^ (k + 1) * 2 ^ 23 by ring]; exact hle)
        (by rw [show 2 * q * 2 ^ k * 2 ^ 24 = q * 2 ^ (k + 1) * 2 ^ 24 by ring]; exact hlt)]
      ring

theorem roundToMultiple_int_mul (m : Int) (q : ℚ) (hq : 0 < q) :
    roundToMultiple (m * q) q = m * q := by
  have h : (m : ℚ) * q / q = m := by field_simp
  unfold roundToMultiple
  simp only [h, Int.floor_intCast, sub_self]
  rw [if_pos (by norm_num)]

theorem floatQuantum_pos (x : ℚ) :
    ∀ (fuel : Nat) (q : ℚ), 0 < q → 0 < floatQuantum x fuel q := by
  intro fuel
  induction fuel with
  | zero => intro q hq; simpa [floatQuantum] using hq
  | succ f ih =>
    intro q hq
    rw [floatQuantum]
    split_ifs
    · exact hq
    · exact ih (2 * q) (by linarith)

theorem floatQuantum_le (x : ℚ) :
    ∀ (fuel : Nat) (q : ℚ), 0 < q →
      floatQuantum x fuel q = q ∨ floatQuantum x fuel q * 2 ^ 23 ≤ |x| := by
  intro fuel
  induction fuel with
  | zero => intro q _; left; rfl
  | succ f ih =>
    intro q hq
    rw [floatQuantum]
    by_cases h : |x| < q * 2 ^ 24
    · left; rw [if_pos h]
    · right
      rw [if_neg h]
      rcases ih (2 * q) (by linarith) with h1 | h1
      · rw [h1]
        have : 2 * q * 2 ^ 23 = q * 2 ^ 24 := by ring
        rw [this]
        exact not_lt.mp h
      · exact h1

theorem abs_roundToMultiple_sub_le (x q : ℚ) (hq : 0 < q) :
    |roundToMultiple x q - x| ≤ q / 2 := by
  have h1 : (⌊x / q⌋ : ℚ) ≤ x / q := Int.floor_le _
  have h2 : x / q < ⌊x / q⌋ + 1 := Int.lt_floor_add_one _
  have hx : x = x / q * q := by field_simp
  unfold roundToMultiple
  simp only
  rw [abs_le]
  split_ifs with ha hb hc
  · constructor <;> nlinarith
  · constructor <;> nlinarith
  · have hr : x / q - ⌊x / q⌋ = 1 / 2 := le_antisymm (not_lt.mp hb) (not_lt.mp ha)
    constructor <;> nlinarith
  · have hr : x / q - ⌊x / q⌋ = 1 / 2 := le_antisymm (not_lt.mp hb) (not_lt.mp ha)
    constructor <;> nlinarith

theorem roundToMultiple_ne_zero (x q : ℚ) (hq : 0 < q) (hx : q / 2 < |x|) :
    roundToMultiple x q ≠ 0 := by
  have h1 : (⌊x / q⌋ : ℚ) ≤ x / q := Int.floor_le _
  have h2 : x / q < ⌊x / q⌋ + 1 := Int.lt_floor_add_one _
  have hxq : x = x / q * q := by field_simp
  have hhalf : 1 / 2 < |x / q| := by
    rw [abs_div, abs_of_pos hq, lt_div_iff₀ hq]
    linarith
  unfold roundToMultiple
  simp only
  rcases lt_or_le 0 (x / q) with hpos | hneg
  · rw [abs_of_pos hpos] at hhalf
    have hn0 : (0 : Int) ≤ ⌊x / q⌋ := Int.floor_nonneg.mpr hpos.le
    have hn0q : (0 : ℚ) ≤ (⌊x / q⌋ : ℚ) := by exact_mod_cast hn0
    split_ifs with ha hb hc
    · have : (0 : ℚ) < ⌊x / q⌋ := by linarith
      exact (mul_pos this hq).ne'
    · exact (mul_pos (by linarith) hq).ne'
    · have : (0 : ℚ) < ⌊x / q⌋ := by linarith
      exact (mul_pos this hq).ne'
    · exact (mul_pos (by linarith) hq).ne'
  · rw [abs_of_nonpos hneg] at hhalf
    have hn1 : ⌊x / q⌋ ≤ (-1 : Int) := by
      have : ⌊x / q⌋ < (0 : Int) := Int.floor_lt.mpr (by push_cast; linarith)
      omega
    have hn1q : (⌊x / q⌋ : ℚ) ≤ -1 := by exact_mod_cast hn1
    split_ifs with ha hb hc
    · exact (mul_neg_of_neg_of_pos (by linarith) hq).ne
    · exact (mul_neg_of_neg_of_pos (by linarith) hq).ne
    · exact (mul_neg_of_neg_of_pos (by linarith) hq).ne
    · have hr : x / q - ⌊x / q⌋ = 1 / 2 := le_antisymm (not_lt.mp hb) (not_lt.mp ha)
      exact (mul_neg_of_neg_of_pos (by linarith) hq).ne

theorem floatQuantum_half_lt (x : ℚ) (hx : 1 / 2 ^ 149 ≤ |x|) :
    floatQuantum x 253 (1 / 2 ^ 149) / 2 < |x| := by
  have hpos := floatQuantum_pos x 253 (1 / 2 ^ 149) (by norm_num)
  rcases floatQuantum_le x 253 (1 / 2 ^ 149) (by norm_num) with h | h
  · rw [h]
    have : (0 : ℚ) < 1 / 2 ^ 149 := by norm_num
    linarith
  · nlinarith

theorem floatQuantum_half_le (x : ℚ) (hx : 1 / 2 ^ 149 ≤ |x|) :
    floatQuantum x 253 (1 / 2 ^ 149) / 2 ≤ |x| / 2 := by
  have hpos := floatQuantum_pos x 253 (1 / 2 ^ 149) (by norm_num)
  rcases floatQuantum_le x 253 (1 / 2 ^ 149) (by norm_num) with h | h
  · rw [h]; linarith
  · nlinarith

theorem roundFloat_ne_zero (x : ℚ) (hx : 1 / 2 ^ 149 ≤ |x|) : roundFloat x ≠ 0 :=
  roundToMultiple_ne_zero x _ (floatQuantum_pos x 253 _ (by norm_num))
    (floatQuantum_half_lt x hx)

theorem abs_roundFloat_ge (x : ℚ) (hx : 1 / 2 ^ 149 ≤ |x|) : |x| / 2 ≤ |roundFloat x| := by
  have h1 := abs_roundToMultiple_sub_le x (floatQuantum x 253 (1 / 2 ^ 149))
    (floatQuantum_pos x 253 _ (by norm_num))
  have h2 := floatQuantum_half_le x hx
  have h3 : |x| - |roundFloat x| ≤ |roundFloat x - x| := by
    rw [abs_sub_comm]
    exact abs_sub_abs_le_abs_sub x (roundFloat x)
  unfold roundFloat at h3 ⊢
  linarith

theorem roundFloat_of_scaled (m : Int) (k : Nat) (hk : k ≤ 253)
    (hlo : (2 : ℚ) ^ 23 ≤ |(m : ℚ)|) (hhi : |(m : ℚ)| < 2 ^ 24) :
    roundFloat (m * (1 / 2 ^ 149 * 2 ^ k)) = m * (1 / 2 ^ 149 * 2 ^ k) := by
  have hq : (0 : ℚ) < 1 / 2 ^ 149 * 2 ^ k := by positivity
  have habs : |(m : ℚ) * (1 / 2 ^ 149 * 2 ^ k)| = |(m : ℚ)| * (1 / 2 ^ 149 * 2 ^ k) := by
    rw [abs_mul, abs_of_pos hq]
  have hquant : floatQuantum (m * (1 / 2 ^ 149 * 2 ^ k)) 253 (1 / 2 ^ 149)
      = 1 / 2 ^ 149 * 2 ^ k := by
    apply floatQuantum_eq _ k 253 _ (by norm_num) hk
    · rw [habs]; nlinarith
    · rw [habs]; nlinarith
  unfold roundFloat
  rw [hquant, roundToMultiple_int_mul m _ hq]

theorem pointOneF_eq : pointOneF = 13421773 / 134217728 := by
  have hquant : floatQuantum (1 / 10) 253 (1 / 2 ^ 149) = 1 / 2 ^ 149 * 2 ^ 122 := by
    apply floatQuantum_eq _ 122 253 _ (by norm_num) (by norm_num)
    · rw [abs_of_pos (by norm_num)]; norm_num
    · rw [abs_of_pos (by norm_num)]; norm_num
  have hfloor : ⌊(1 / 10 : ℚ) / (1 / 2 ^ 149 * 2 ^ 122)⌋ = 13421772 := by
    rw [Int.floor_eq_iff]
    constructor <;> norm_num
  unfold pointOneF roundFloat roundToMultiple
  simp only [hquant, hfloor]
  norm_num

theorem roundFloat_one : roundFloat 1 = 1 := by
  have h := roundFloat_of_scaled (2 ^ 23) 126 (by norm_num) (by norm_num) (by norm_num)
  have e : ((2 ^ 23 : Int) : ℚ) * (1 / 2 ^ 149 * 2 ^ 126) = 1 := by norm_num
  rw [e] at h
  exact h

theorem roundFloat_neg_one : roundFloat (-1) = -1 := by
  have h := roundFloat_of_scaled (-2 ^ 23) 126 (by norm_num) (by norm_num) (by norm_num)
  have e : ((-2 ^ 23 : Int) : ℚ) * (1 / 2 ^ 149 * 2 ^ 126) = -1 := by norm_num
  rw [e] at h
  exact h

theorem roundFloat_pointOneF : roundFloat pointOneF = pointOneF := by
  have h := roundFloat_of_scaled 13421773 122 (by norm_num) (by norm_num) (by norm_num)
  have e : ((13421773 : Int) : ℚ) * (1 / 2 ^ 149 * 2 ^ 122) = 13421773 / 134217728 := by
    norm_num
  rw [e, ← pointOneF_eq] at h
  exact h

theorem roundFloat_neg_pointOneF : roundFloat (-pointOneF) = -pointOneF := by
  have h := roundFloat_of_scaled (-13421773) 122 (by norm_num) (by norm_num) (by norm_num)
  have e : ((-13421773 : Int) : ℚ) * (1 / 2 ^ 149 * 2 ^ 122) = -(13421773 / 134217728) := by
    norm_num
  rw [e, ← pointOneF_eq] at h
  exact h

theorem roundFloat_int_mul_ne_zero (id : Int) (h : id ≠ 0) :
    roundFloat (roundFloat (id : ℚ) * pointOneF) ≠ 0 := by
  have h1 : (1 : ℚ) ≤ |(id : ℚ)| := by
    have : (1 : Int) ≤ |id| := Int.one_le_abs h
    exact_mod_cast this
  have h2 : |(id : ℚ)| / 2 ≤ |roundFloat (id : ℚ)| :=
    abs_roundFloat_ge _ (le_trans (by norm_num) h1)
  apply roundFloat_ne_zero
  rw [abs_mul, pointOneF_eq, abs_of_pos (by norm_num : (0 : ℚ) < 13421773 / 134217728)]
  have h3 : (1 : ℚ) / 2 ≤ |roundFloat (id : ℚ)| := by linarith
  have h4 : (1 : ℚ) / 2 ^ 149 ≤ 1 / 2 * (13421773 / 134217728) := by norm_num
  nlinarith

/-! ### Claims on `getTimestamp` -/

theorem create_single_timestamps :
    (ImageFolderReader.create 1 [TimesLine.three 7 5] []).timestamps = [7] := by
  have h1 : (loadTimestamps 1 [TimesLine.three 7 5]).timestamps = [7] := by
    unfold loadTimestamps
    rw [checkExposures_of_length_eq 1 _ (by decide)]
    show (readTimes [TimesLine.three 7 5]).timestamps = [7]
    decide
  show (checkExposures 1 (loadTimestamps 1 [TimesLine.three 7 5])).timestamps = [7]
  rw [checkExposures_of_length_eq 1 _ (by rw [h1]; rfl)]
  exact h1

/-- C7, as stated, fails when no time stamps are loaded: a reader built for one frame
without a times file answers the single-precision product `id*0.1f`, which is `-0.1f`
for `id = -1` and `0.1f` for `id = 1`, the frame count; `0.1f` is
`13421773/134217728`. -/
theorem getTimestamp_unloaded_out_of_range :
    getTimestamp (ImageFolderReader.create 1 [] []).timestamps (-1)
        = -(13421773 / 134217728) ∧
      getTimestamp (ImageFolderReader.create 1 [] []).timestamps (-1) ≠ 0 ∧
      getTimestamp (ImageFolderReader.create 1 [] []).timestamps 1
        = 13421773 / 134217728 ∧
      getTimestamp (ImageFolderReader.create 1 [] []).timestamps 1 ≠ 0 := by
  have hm : getTimestamp [] (-1) = -(13421773 / 134217728) := by
    simp only [getTimestamp, List.length_nil, if_true, Int.cast_neg, Int.cast_one]
    rw [roundFloat_neg_one, neg_one_mul, roundFloat_neg_pointOneF, pointOneF_eq]
  have hp : getTimestamp [] 1 = 13421773 / 134217728 := by
    simp only [getTimestamp, List.length_nil, if_true, Int.cast_one]
    rw [roundFloat_one, one_mul, roundFloat_pointOneF, pointOneF_eq]
  rw [create_no_times 1 (by decide), hm, hp]
  norm_num

/-- C7, amended. For a reader built for `N` frames: when time stamps are loaded,
`getTimestamp id` is `0` for every `id < 0` and every `id >= N`; when none are loaded,
`getTimestamp id` is the single-precision product `id*0.1f` for every `id`, in range
or not, and that product is not zero unless `id = 0`. -/
theorem getTimestamp_out_of_range (numImages : Nat) (timesLines : List TimesLine)
    (poseLines : List (Option PoseRecord)) (id : Int) :
    ((ImageFolderReader.create numImages timesLines poseLines).timestamps ≠ [] →
        (id < 0 ∨ (numImages : Int) ≤ id) →
        getTimestamp (ImageFolderReader.create numImages timesLines poseLines).timestamps id
          = 0) ∧
      ((ImageFolderReader.create numImages timesLines poseLines).timestamps = [] →
        getTimestamp (ImageFolderReader.create numImages timesLines poseLines).timestamps id
            = roundFloat (roundFloat (id : ℚ) * pointOneF) ∧
          (id ≠ 0 →
            getTimestamp (ImageFolderReader.create numImages timesLines poseLines).timestamps
              id ≠ 0)) := by
  constructor
  · intro hne hid
    have hlen : (ImageFolderReader.create numImages timesLines poseLines).timestamps.length
        = numImages := by
      rcases create_timestamps numImages timesLines poseLines with h | h
      · exact absurd h hne
      · exact h
    have hpos : (ImageFolderReader.create numImages timesLines poseLines).timestamps.length
        ≠ 0 := fun h0 => hne (List.length_eq_zero.mp h0)
    unfold getTimestamp
    rw [if_neg hpos, hlen]
    rcases hid with hneg | hge
    · by_cases hge : id ≥ (numImages : Int)
      · rw [if_pos hge]
      · rw [if_neg hge, if_pos hneg]
    · rw [if_pos hge]
  · intro hnil
    rw [hnil]
    have h : getTimestamp [] id = roundFloat (roundFloat (id : ℚ) * pointOneF) := by
      simp only [getTimestamp, List.length_nil, if_true]
    refine ⟨h, fun hid => ?_⟩
    rw [h]
    exact roundFloat_int_mul_ne_zero id hid

theorem getTimestamp_out_of_range_witness :
    ((ImageFolderReader.create 1 [TimesLine.three 7 5] []).timestamps ≠ [] ∧
        ((-1 : Int) < 0 ∨ ((1 : Nat) : Int) ≤ -1) ∧
        getTimestamp (ImageFolderReader.create 1 [TimesLine.three 7 5] []).timestamps (-1)
          = 0) ∧
      ((ImageFolderReader.create 1 [] []).timestamps = [] ∧ (1 : Int) ≠ 0 ∧
        getTimestamp (ImageFolderReader.create 1 [] []).timestamps 1 ≠ 0) :=
  ⟨⟨by rw [create_single_timestamps]; exact List.cons_ne_nil _ _, by decide,
      (getTimestamp_out_of_range 1 [TimesLine.three 7 5] [] (-1)).1
        (by rw [create_single_timestamps]; exact List.cons_ne_nil _ _) (by decide)⟩,
    ⟨create_no_times 1 (by decide), by decide,
      ((getTimestamp_out_of_range 1 [] [] 1).2 (create_no_times 1 (by decide))).2
        (by decide)⟩⟩

/-! ### Claims on the archive read -/

/-- For a size that fits an `int`, on a buffer that is still null or has one of the two
sizes the code gives it, an entry of more than `w*h*6+10000` and fewer than `w*h*30`
bytes is read in two attempts with one reallocation in between, and all its bytes reach
the decoder. -/
theorem getImageRaw_internal_growth (widthOrg heightOrg : Nat) (databuffer : Option Nat)
    (entrySize : Nat)
    (hint : widthOrg * heightOrg * 6 + 10000 < 2 ^ 31)
    (hbuf : databuffer = none ∨ databuffer = some (widthOrg * heightOrg * 6 + 10000) ∨
      databuffer = some (widthOrg * heightOrg * 30))
    (h1 : widthOrg * heightOrg * 6 + 10000 < entrySize)
    (h2 : entrySize < widthOrg * heightOrg * 30) :
    (getImageRaw_internal widthOrg heightOrg databuffer entrySize).result
        = .decoded entrySize ∧
      (getImageRaw_internal widthOrg heightOrg databuffer entrySize).reallocations = 1 ∧
      (getImageRaw_internal widthOrg heightOrg databuffer entrySize).databuffer
        = some (widthOrg * heightOrg * 30) ∧
      (getImageRaw_internal widthOrg heightOrg databuffer entrySize).reads.map
          (fun r => (r.requested, r.readbytes))
        = [(widthOrg * heightOrg * 6 + 10000, widthOrg * heightOrg * 6 + 10000),
            (widthOrg * heightOrg * 30 + 10000, entrySize)] := by
  have hr0 : zip_fread entrySize (widthOrg * heightOrg * 6 + 10000)
      = widthOrg * heightOrg * 6 + 10000 := by
    unfold zip_fread; omega
  have hr1 : zip_fread entrySize (widthOrg * heightOrg * 30 + 10000) = entrySize := by
    unfold zip_fread; omega
  have hi : fitsInt (widthOrg * heightOrg * 6 + 10000) = true := by
    unfold fitsInt; exact decide_eq_true hint
  have hl0 : fitsLong (widthOrg * heightOrg * 6 + 10000) = true := by
    unfold fitsLong; exact decide_eq_true (by omega)
  have hl1 : fitsLong (widthOrg * heightOrg * 30 + 10000) = true := by
    unfold fitsLong; exact decide_eq_true (by omega)
  have hl2 : fitsLong (widthOrg * heightOrg * 30) = true := by
    unfold fitsLong; exact decide_eq_true (by omega)
  have hgt : widthOrg * heightOrg * 6 + 10000 > widthOrg * heightOrg * 6 := by omega
  have hle : ¬ entrySize > widthOrg * heightOrg * 30 := by omega
  rcases hbuf with hb | hb | hb <;> subst hb
  · have hfit : ¬ widthOrg * heightOrg * 6 + 10000 > widthOrg * heightOrg * 6 + 10000 := by
      omega
    simp only [getImageRaw_internal, RawCall.reallocations, hr0, hr1, hi, hl0, hl1, hl2,
      if_pos hgt, if_neg hle, if_neg hfit]
    simp
  · have hfit : ¬ widthOrg * heightOrg * 6 + 10000 > widthOrg * heightOrg * 6 + 10000 := by
      omega
    simp only [getImageRaw_internal, RawCall.reallocations, hr0, hr1, hi, hl0, hl1, hl2,
      if_pos hgt, if_neg hle, if_neg hfit]
    simp
  · have hfit : ¬ widthOrg * heightOrg * 6 + 10000 > widthOrg * heightOrg * 30 := by
      omega
    simp only [getImageRaw_internal, RawCall.reallocations, hr0, hr1, hi, hl0, hl1, hl2,
      if_pos hgt, if_neg hle, if_neg hfit]
    simp

theorem getImageRaw_internal_growth_witness :
    (getImageRaw_internal 640 480 none 2000000).result = .decoded 2000000 ∧
      (getImageRaw_internal 640 480 none 2000000).reallocations = 1 ∧
      (getImageRaw_internal 640 480 none 2000000).databuffer = some (640 * 480 * 30) ∧
      (getImageRaw_internal 640 480 none 2000000).reads.map
          (fun r => (r.requested, r.readbytes))
        = [(640 * 480 * 6 + 10000, 640 * 480 * 6 + 10000),
            (640 * 480 * 30 + 10000, 2000000)] :=
  getImageRaw_internal_growth 640 480 none 2000000 (by decide) (Or.inl rfl) (by decide)
    (by decide)

/-- The test of line 274 never succeeds on a read that stayed inside the buffer: no
call ends in `exit(1)` without `zip_fread` having written past `databuffer` first. -/
theorem getImageRaw_internal_never_clean_abort (widthOrg heightOrg : Nat)
    (databuffer : Option Nat) (entrySize : Nat) :
    (getImageRaw_internal widthOrg heightOrg databuffer entrySize).result ≠ .abort := by
  unfold getImageRaw_internal
  simp only
  split_ifs <;> simp

/-- An entry of more than `w*h*30` bytes, read on a fresh buffer for a size that fits
an `int`: the retry writes past the buffer allocated on line 270. -/
theorem getImageRaw_internal_large_entry (widthOrg heightOrg : Nat) (entrySize : Nat)
    (hint : widthOrg * heightOrg * 6 + 10000 < 2 ^ 31)
    (h : widthOrg * heightOrg * 30 < entrySize) :
    (getImageRaw_internal widthOrg heightOrg none entrySize).result = .overrun ∧
      ∃ r ∈ (getImageRaw_internal widthOrg heightOrg none entrySize).reads,
        r.bufferSize = widthOrg * heightOrg * 30 ∧ r.bufferSize < r.readbytes := by
  have hi : fitsInt (widthOrg * heightOrg * 6 + 10000) = true := by
    unfold fitsInt; exact decide_eq_true hint
  have hl0 : fitsLong (widthOrg * heightOrg * 6 + 10000) = true := by
    unfold fitsLong; exact decide_eq_true (by omega)
  have hl1 : fitsLong (widthOrg * heightOrg * 30 + 10000) = true := by
    unfold fitsLong; exact decide_eq_true (by omega)
  have hl2 : fitsLong (widthOrg * heightOrg * 30) = true := by
    unfold fitsLong; exact decide_eq_true (by omega)
  have h0 : zip_fread entrySize (widthOrg * heightOrg * 6 + 10000)
      > widthOrg * heightOrg * 6 := by
    unfold zip_fread; omega
  have hfit : ¬ zip_fread entrySize (widthOrg * heightOrg * 6 + 10000)
      > widthOrg * heightOrg * 6 + 10000 := by
    unfold zip_fread; omega
  have hr1 : zip_fread entrySize (widthOrg * heightOrg * 30 + 10000)
      > widthOrg * heightOrg * 30 := by
    unfold zip_fread; omega
  simp only [getImageRaw_internal, hi, hl0, hl1, hl2, if_pos h0, if_neg hfit, if_pos hr1]
  simp
  exact Or.inr hr1

/-- C9. The claim fails on a 640x480 dataset read from a fresh buffer. An entry of
10000000 bytes (more than `640*480*30`) does not end cleanly in `exit(1)`: the retry
asks for 9226000 bytes on the 9216000-byte buffer of line 270 and `zip_fread` writes
9226000 bytes into it before the test of line 274. The entry of 2000000 bytes of the
first half is read as the claim says. -/
theorem getImageRaw_internal_abort_after_overrun :
    (getImageRaw_internal 640 480 none 10000000).reads =
        [⟨1853200, 1853200, 1853200⟩, ⟨9226000, 9216000, 9226000⟩] ∧
      (getImageRaw_internal 640 480 none 10000000).result = .overrun ∧
      (getImageRaw_internal 640 480 none 10000000).result ≠ .abort ∧
      (getImageRaw_internal 640 480 none 2000000).result = .decoded 2000000 ∧
      (getImageRaw_internal 640 480 none 2000000).releases = [1853200] ∧
      (getImageRaw_internal 640 480 none 2000000).allocations = [1853200, 9216000] ∧
      (getImageRaw_internal 640 480 none 2000000).databuffer = some 9216000 := by
  decide

/-- Line 262 computes the first buffer size in `int`: for a 20000x20000 original the
value `20000*20000*6+10000` does not fit and the call has no defined behaviour. -/
theorem getImageRaw_internal_int_overflow :
    (getImageRaw_internal 20000 20000 none 1).result = .intOverflow := by
  decide

/-- Whenever the first read on a fresh buffer returns more than `w*h*6` bytes, the
retry asks `zip_fread` for 10000 bytes more than the buffer just allocated holds. -/
theorem retry_requests_beyond_buffer (widthOrg heightOrg : Nat)
    (entrySize : Nat) (hint : widthOrg * heightOrg * 6 + 10000 < 2 ^ 31)
    (h : widthOrg * heightOrg * 6 < entrySize) :
    ∃ r ∈ (getImageRaw_internal widthOrg heightOrg none entrySize).reads,
      r.bufferSize = widthOrg * heightOrg * 30 ∧ r.requested = r.bufferSize + 10000 := by
  have hi : fitsInt (widthOrg * heightOrg * 6 + 10000) = true := by
    unfold fitsInt; exact decide_eq_true hint
  have hl0 : fitsLong (widthOrg * heightOrg * 6 + 10000) = true := by
    unfold fitsLong; exact decide_eq_true (by omega)
  have hl1 : fitsLong (widthOrg * heightOrg * 30 + 10000) = true := by
    unfold fitsLong; exact decide_eq_true (by omega)
  have hl2 : fitsLong (widthOrg * heightOrg * 30) = true := by
    unfold fitsLong; exact decide_eq_true (by omega)
  have h0 : zip_fread entrySize (widthOrg * heightOrg * 6 + 10000)
      > widthOrg * heightOrg * 6 := by
    unfold zip_fread; omega
  have h1 : ¬ zip_fread entrySize (widthOrg * heightOrg * 6 + 10000)
      > widthOrg * heightOrg * 6 + 10000 := by
    unfold zip_fread; omega
  simp only [getImageRaw_internal, hi, hl0, hl1, hl2, if_pos h0, if_neg h1]
  simp only [Bool.true_eq_false, and_false, if_false]
  split_ifs <;> simp

/-- C10. The claim fails on a 640x480 dataset whose first archive entry has 9220000
bytes: the retry read is issued with capacity `640*480*30+10000` on a buffer of
`640*480*30` bytes, and `zip_fread` writes 9220000 bytes into it. -/
theorem getImageRaw_internal_retry_overflow :
    (getImageRaw_internal 640 480 none 9220000).reads =
        [⟨1853200, 1853200, 1853200⟩, ⟨9226000, 9216000, 9220000⟩] ∧
      ∃ r ∈ (getImageRaw_internal 640 480 none 9220000).reads,
        r.bufferSize < r.requested ∧ r.bufferSize < r.readbytes := by
  have h : (getImageRaw_internal 640 480 none 9220000).reads =
      [⟨1853200, 1853200, 1853200⟩, ⟨9226000, 9216000, 9220000⟩] := by decide
  refine ⟨h, ?_⟩
  rw [h]
  exact ⟨⟨9226000, 9216000, 9220000⟩, by simp, by decide, by decide⟩

/-! ### The repeated check of `loadCameraPoses` and the metadata lookup -/

theorem fixExposure_of_ne_zero (ex : List ℚ) (i : Nat) (h : ex.getD i 0 ≠ 0) :
    fixExposure ex i = ex := by
  unfold fixExposure
  rw [if_neg h]

theorem getD_ne_zero_of_not_mem (ex : List ℚ) (h0 : (0 : ℚ) ∉ ex) {i : Nat}
    (hi : i < ex.length) : ex.getD i 0 ≠ 0 :=
  fun hz => h0 ((mem_iff_getD_eq ex 0).mpr ⟨i, hi, hz⟩)

/-- The repair loop leaves a vector without zero entries as it is. -/
theorem foldl_range_of_not_mem (ex : List ℚ) (good : Bool) (h0 : (0 : ℚ) ∉ ex) (k : Nat)
    (hk : k ≤ ex.length) :
    ((List.range k).foldl repairBody (ex, good)).1 = ex := by
  induction k with
  | zero => rfl
  | succ k ih =>
    rw [foldl_range_succ]
    simp only [repairBody]
    rw [ih (by omega)]
    exact fixExposure_of_ne_zero ex k (getD_ne_zero_of_not_mem ex h0 (by omega))

theorem repairedExposures_of_not_mem (ex : List ℚ) (h0 : (0 : ℚ) ∉ ex) :
    repairedExposures ex = ex :=
  foldl_range_of_not_mem ex true h0 ex.length (le_refl _)

theorem repairedExposures_nil : repairedExposures [] = [] := rfl

/-- The exposure vector left by the check is empty, or as long as the frame count and
free of zeros. -/
theorem checkExposures_exposures (numImages : Nat) (s : MetaState) :
    (checkExposures numImages s).exposures = [] ∨
      ((checkExposures numImages s).exposures.length = numImages ∧
        (0 : ℚ) ∉ (checkExposures numImages s).exposures) := by
  by_cases h : s.timestamps.length = numImages
  · rw [checkExposures_of_length_eq numImages s h]
    by_cases hgood : s.exposures.length = numImages ∧ (0 : ℚ) ∉ repairedExposures s.exposures
    · right
      show (if _ then _ else _ : List ℚ).length = numImages ∧
        (0 : ℚ) ∉ (if _ then _ else _ : List ℚ)
      rw [if_pos hgood, length_repairedExposures]
      exact hgood
    · left
      show (if _ then _ else _ : List ℚ) = []
      rw [if_neg hgood]
  · left
    rw [checkExposures_of_length_ne numImages s h]

/-- The repair and consistency pass changes nothing when run on its own result. -/
theorem checkExposures_idem (numImages : Nat) (s : MetaState) :
    checkExposures numImages (checkExposures numImages s) = checkExposures numImages s := by
  have hts : ∀ (ts ex : List ℚ), ts = [] ∨ ts.length = numImages →
      ex = [] ∨ (ex.length = numImages ∧ (0 : ℚ) ∉ ex) →
      (ts = [] → ex = []) →
      checkExposures numImages { timestamps := ts, exposures := ex }
        = { timestamps := ts, exposures := ex } := by
    intro ts ex hT hE hTE
    by_cases hlen : ts.length = numImages
    · rw [checkExposures_of_length_eq numImages _ hlen]
      rcases hE with hnil | ⟨hl, hz⟩
      · subst hnil
        show MetaState.mk ts (if _ then _ else _) = _
        rw [repairedExposures_nil]
        simp
      · show MetaState.mk ts (if _ then _ else _) = _
        rw [repairedExposures_of_not_mem ex hz, if_pos ⟨hl, hz⟩]
    · rw [checkExposures_of_length_ne numImages _ hlen]
      rcases hT with hnil | hl
      · rw [hnil, hTE hnil]
      · exact absurd hl hlen
  by_cases h : s.timestamps.length = numImages
  · have hE := checkExposures_exposures numImages s
    rw [checkExposures_of_length_eq numImages s h] at hE ⊢
    refine hts _ _ (Or.inr h) hE ?_
    intro hnil
    rcases hE with hE | ⟨hl, _⟩
    · exact hE
    · have h0 : numImages = 0 := by rw [← h, hnil]; rfl
      exact List.length_eq_zero.mp (by rw [hl, h0])
  · rw [checkExposures_of_length_ne numImages s h]
    exact hts [] [] (Or.inl rfl) (Or.inl rfl) (fun _ => rfl)

/-- C11. The repair and consistency pass that `loadCameraPoses` runs again is a no-op
on every state `loadTimestamps` produces: the timestamp vector and the exposure
vector are both exactly as `loadTimestamps` left them. -/
theorem loadCameraPoses_check_is_noop (numImages : Nat) (timesLines : List TimesLine)
    (poseLines : List (Option PoseRecord)) :
    (loadCameraPoses numImages poseLines (loadTimestamps numImages timesLines)).2.timestamps
        = (loadTimestamps numImages timesLines).timestamps ∧
      (loadCameraPoses numImages poseLines (loadTimestamps numImages timesLines)).2.exposures
        = (loadTimestamps numImages timesLines).exposures ∧
      checkExposures numImages (loadTimestamps numImages timesLines)
        = loadTimestamps numImages timesLines := by
  have h : checkExposures numImages (loadTimestamps numImages timesLines)
      = loadTimestamps numImages timesLines := by
    unfold loadTimestamps
    exact checkExposures_idem numImages (readTimes timesLines)
  refine ⟨?_, ?_, h⟩
  · show (checkExposures numImages (loadTimestamps numImages timesLines)).timestamps = _
    rw [h]
  · show (checkExposures numImages (loadTimestamps numImages timesLines)).exposures = _
    rw [h]

theorem create_exposures (numImages : Nat) (timesLines : List TimesLine)
    (poseLines : List (Option PoseRecord)) :
    (ImageFolderReader.create numImages timesLines poseLines).exposures = [] ∨
      ((ImageFolderReader.create numImages timesLines poseLines).exposures.length
          = numImages ∧
        (0 : ℚ) ∉ (ImageFolderReader.create numImages timesLines poseLines).exposures) :=
  checkExposures_exposures numImages (loadTimestamps numImages timesLines)

/-- An index inside the vector reads the element stored there. -/
theorem vectorAt_of_lt (v : List ℚ) (id : Int) (h0 : 0 ≤ id) (hlt : id.toNat < v.length) :
    vectorAt v id = some (v.get ⟨id.toNat, hlt⟩) := by
  unfold vectorAt
  rw [if_neg (by omega), List.getElem?_eq_getElem hlt]
  rfl

theorem create_example_exposures :
    (ImageFolderReader.create 2 [TimesLine.three 7 5, TimesLine.two 8] []).exposures
        = [5, 5] ∧
      (ImageFolderReader.create 2 [TimesLine.three 7 5, TimesLine.two 8] []).timestamps
        = [7, 8] := by
  have hr : repairedExposures [5, 0] = [5, 5] := by
    simp [repairedExposures, repairLoop, repairBody, fixExposure, List.range,
      List.range.loop]
  have h1 : loadTimestamps 2 [TimesLine.three 7 5, TimesLine.two 8]
      = { timestamps := [7, 8], exposures := [5, 5] } := by
    unfold loadTimestamps
    rw [checkExposures_of_length_eq 2 _ (by decide)]
    have he : (readTimes [TimesLine.three 7 5, TimesLine.two 8]).exposures = [5, 0] := by
      decide
    have ht : (readTimes [TimesLine.three 7 5, TimesLine.two 8]).timestamps = [7, 8] := by
      decide
    rw [he, ht, hr]
    simp
  have h2 : checkExposures 2 (loadTimestamps 2 [TimesLine.three 7 5, TimesLine.two 8])
      = { timestamps := [7, 8], exposures := [5, 5] } := by
    rw [← h1]
    unfold loadTimestamps
    exact checkExposures_idem 2 _
  show (checkExposures 2 (loadTimestamps 2 [TimesLine.three 7 5, TimesLine.two 8])).exposures
      = [5, 5] ∧
    (checkExposures 2 (loadTimestamps 2 [TimesLine.three 7 5, TimesLine.two 8])).timestamps
      = [7, 8]
  rw [h2]
  exact ⟨rfl, rfl⟩

/-- C12. For a reader built for `N` frames and an index `0 <= id < N`, both lookups of
`getImage_internal` stay inside their vectors. The exposure passed on is `1` when the
exposure vector is empty and otherwise the element `exposures[id]`, which is not zero;
the timestamp passed on is `0` when the timestamp vector is empty and otherwise the
element `timestamps[id]`. -/
theorem getImage_internal_in_bounds (numImages : Nat) (timesLines : List TimesLine)
    (poseLines : List (Option PoseRecord)) (id : Int)
    (h0 : 0 ≤ id) (hN : id < (numImages : Int)) :
    ∃ exposure timestamp : ℚ,
      getImage_internal (ImageFolderReader.create numImages timesLines poseLines) id
        = some (exposure, timestamp) ∧
      ((ImageFolderReader.create numImages timesLines poseLines).exposures = [] →
        exposure = 1) ∧
      ((ImageFolderReader.create numImages timesLines poseLines).exposures ≠ [] →
        ∃ h : id.toNat
            < (ImageFolderReader.create numImages timesLines poseLines).exposures.length,
          exposure
              = (ImageFolderReader.create numImages timesLines poseLines).exposures.get
                  ⟨id.toNat, h⟩ ∧
            exposure ≠ 0) ∧
      ((ImageFolderReader.create numImages timesLines poseLines).timestamps = [] →
        timestamp = 0) ∧
      ((ImageFolderReader.create numImages timesLines poseLines).timestamps ≠ [] →
        ∃ h : id.toNat
            < (ImageFolderReader.create numImages timesLines poseLines).timestamps.length,
          timestamp
            = (ImageFolderReader.create numImages timesLines poseLines).timestamps.get
                ⟨id.toNat, h⟩) := by
  generalize hr : ImageFolderReader.create numImages timesLines poseLines = r
  have hE := create_exposures numImages timesLines poseLines
  have hT := create_timestamps numImages timesLines poseLines
  rw [hr] at hE hT
  have hid : id.toNat < numImages := by omega
  -- the exposure argument
  have hexp : ∃ e : ℚ,
      (if r.exposures.length = 0 then some 1 else vectorAt r.exposures id) = some e ∧
      (r.exposures = [] → e = 1) ∧
      (r.exposures ≠ [] →
        ∃ h : id.toNat < r.exposures.length, e = r.exposures.get ⟨id.toNat, h⟩ ∧ e ≠ 0) := by
    by_cases hnil : r.exposures = []
    · refine ⟨1, ?_, fun _ => rfl, fun hne => absurd hnil hne⟩
      rw [if_pos (by rw [hnil]; rfl)]
    · rcases hE with hE | ⟨hl, hz⟩
      · exact absurd hE hnil
      · have hlt : id.toNat < r.exposures.length := by rw [hl]; exact hid
        refine ⟨r.exposures.get ⟨id.toNat, hlt⟩, ?_, fun h => absurd h hnil,
          fun _ => ⟨hlt, rfl, ?_⟩⟩
        · rw [if_neg (fun h => hnil (List.length_eq_zero.mp h)),
            vectorAt_of_lt r.exposures id h0 hlt]
        · intro hzero
          exact hz (hzero ▸ List.get_mem r.exposures id.toNat hlt)
  -- the timestamp argument
  have htime : ∃ t : ℚ,
      (if r.timestamps.length = 0 then some 0 else vectorAt r.timestamps id) = some t ∧
      (r.timestamps = [] → t = 0) ∧
      (r.timestamps ≠ [] →
        ∃ h : id.toNat < r.timestamps.length, t = r.timestamps.get ⟨id.toNat, h⟩) := by
    by_cases hnil : r.timestamps = []
    · refine ⟨0, ?_, fun _ => rfl, fun hne => absurd hnil hne⟩
      rw [if_pos (by rw [hnil]; rfl)]
    · rcases hT with hT | hl
      · exact absurd hT hnil
      · have hlt : id.toNat < r.timestamps.length := by rw [hl]; exact hid
        refine ⟨r.timestamps.get ⟨id.toNat, hlt⟩, ?_, fun h => absurd h hnil,
          fun _ => ⟨hlt, rfl⟩⟩
        rw [if_neg (fun h => hnil (List.length_eq_zero.mp h)),
          vectorAt_of_lt r.timestamps id h0 hlt]
  obtain ⟨e, he, he1, he2⟩ := hexp
  obtain ⟨t, ht, ht1, ht2⟩ := htime
  refine ⟨e, t, ?_, he1, he2, ht1, ht2⟩
  unfold getImage_internal
  rw [he, ht]

theorem getImage_internal_in_bounds_witness :
    (0 : Int) ≤ 1 ∧ (1 : Int) < ((2 : Nat) : Int) ∧
      ∃ exposure timestamp : ℚ,
        getImage_internal
            (ImageFolderReader.create 2 [TimesLine.three 7 5, TimesLine.two 8] []) 1
          = some (exposure, timestamp) ∧
        exposure ≠ 0 := by
  refine ⟨by decide, by decide, ?_⟩
  obtain ⟨e, t, h, _, he, _, _⟩ :=
    getImage_internal_in_bounds 2 [TimesLine.three 7 5, TimesLine.two 8] [] 1
      (by decide) (by decide)
  have hne : (ImageFolderReader.create 2 [TimesLine.three 7 5, TimesLine.two 8] []).exposures
      ≠ [] := by
    rw [create_example_exposures.1]
    exact List.cons_ne_nil _ _
  obtain ⟨_, _, hz⟩ := he hne
  exact ⟨e, t, h, hz⟩

end DatasetReader
